import Mathlib

set_option maxRecDepth 20000

/-!
Verification development for the skill-tree generator
(`src/skill_tree_generator.py`).

The Python program is shallowly embedded: pure string manipulation is
modelled over `List Char` / `String`, the optional PDF backends and the
remote classification service are modelled as explicit inputs describing
their observable outcome, and file writes are modelled as an explicit
effect sequence.  Machine-level concerns (actual PDF decoding, the HTTP
stack, the D3 rendering runtime) are external collaborators and appear
only through the outcomes they can deliver to the embedded code.

Python string primitives used by the program (`str.lower`, `str.strip`,
`str.title`, substring tests, `str.replace`, `json.dumps`/`json.loads`)
are modelled explicitly below.  Case mapping is modelled on the ASCII
range, which covers every string literal appearing in the program.
-/

/-- ASCII lower-casing of one character; models Python `str.lower` on the
ASCII range (all keyword-table entries are ASCII). -/
def asciiLower (c : Char) : Char :=
  if 'A' ≤ c ∧ c ≤ 'Z' then Char.ofNat (c.toNat + 32) else c

/-- ASCII upper-casing of one character. -/
def asciiUpper (c : Char) : Char :=
  if 'a' ≤ c ∧ c ≤ 'z' then Char.ofNat (c.toNat - 32) else c

/-- Models Python `str.lower` (ASCII case mapping). -/
def pyLower (s : String) : String :=
  String.mk (s.data.map asciiLower)

/-- Python whitespace recognised by `str.strip` (ASCII part together with
the Latin-1 and the common Unicode space code points). -/
def isPySpace (c : Char) : Bool :=
  decide (c.toNat = 0x20 ∨ (0x9 ≤ c.toNat ∧ c.toNat ≤ 0xd) ∨
    (0x1c ≤ c.toNat ∧ c.toNat ≤ 0x1f) ∨ c.toNat = 0x85 ∨ c.toNat = 0xa0 ∨
    c.toNat = 0x1680 ∨ (0x2000 ≤ c.toNat ∧ c.toNat ≤ 0x200a) ∨
    c.toNat = 0x2028 ∨ c.toNat = 0x2029 ∨ c.toNat = 0x202f ∨
    c.toNat = 0x205f ∨ c.toNat = 0x3000)

/-- Strip Python whitespace from both ends of a character list. -/
def pyStripL (l : List Char) : List Char :=
  ((l.dropWhile isPySpace).reverse.dropWhile isPySpace).reverse

/-- Models Python `str.strip()` with no arguments. -/
def pyStrip (s : String) : String :=
  String.mk (pyStripL s.data)

/-- Does `pat` occur as a contiguous substring?  Models the Python
`pat in s` test on strings. -/
def containsSub (pat : List Char) : List Char → Bool
  | [] => pat.isEmpty
  | c :: rest => pat.isPrefixOf (c :: rest) || containsSub pat rest

theorem isPrefixOf_iff_append {α : Type} [DecidableEq α] (p l : List α) :
    p.isPrefixOf l = true ↔ ∃ t, l = p ++ t := by
  induction p generalizing l with
  | nil => simp [List.isPrefixOf]
  | cons a p ih =>
    cases l with
    | nil => simp [List.isPrefixOf]
    | cons b l =>
      simp only [List.isPrefixOf, Bool.and_eq_true, beq_iff_eq, ih]
      constructor
      · rintro ⟨rfl, t, rfl⟩
        exact ⟨t, rfl⟩
      · rintro ⟨t, h⟩
        cases h
        exact ⟨rfl, t, rfl⟩

theorem containsSub_iff (pat l : List Char) :
    containsSub pat l = true ↔ ∃ a b, l = a ++ pat ++ b := by
  induction l with
  | nil =>
    simp only [containsSub, List.isEmpty_iff]
    constructor
    · rintro rfl
      exact ⟨[], [], rfl⟩
    · rintro ⟨a, b, h⟩
      rcases List.append_eq_nil.mp h.symm with ⟨h1, h2⟩
      exact (List.append_eq_nil.mp h1).2
  | cons c rest ih =>
    simp only [containsSub, Bool.or_eq_true, isPrefixOf_iff_append, ih]
    constructor
    · rintro (⟨t, ht⟩ | ⟨a, b, hab⟩)
      · exact ⟨[], t, by simp [ht]⟩
      · exact ⟨c :: a, b, by simp [hab]⟩
    · rintro ⟨a, b, hab⟩
      cases a with
      | nil =>
        left
        exact ⟨b, by simpa using hab⟩
      | cons a0 a' =>
        right
        rcases List.cons_eq_cons.mp (by simpa using hab) with ⟨rfl, h⟩
        exact ⟨a', b, by simp [h]⟩

/-!
## Text Extractor (`extract_text_from_pdf`, source lines 28-61)

Each optional backend (`pdfplumber`, `PyPDF2`) is modelled by an
`Option BackendRun`: `none` means the module failed to import; a run
records the per-page results of `page.extract_text()` that the loop
observed, and whether the backend raised an exception afterwards (an
exception at `open` time is `exnAfter []`).  The `text` accumulation is
exactly the source loop: falsy page text (None or the empty string) is
skipped, every other page contributes `page_text + "\n"`.
-/

/-- Observable behaviour of one PDF backend on the given document. -/
inductive BackendRun where
  | ok (pages : List (Option String))
  | exnAfter (pages : List (Option String))
deriving DecidableEq

/-- The page-text accumulation loop of `extract_text_from_pdf`:
`if page_text: text += page_text + "\n"`. -/
def accPages (pages : List (Option String)) : String :=
  pages.foldl
    (fun acc p =>
      match p with
      | some s => if s = "" then acc else acc ++ s ++ "\n"
      | none => acc)
    ""

/-- Text a backend run leaves in the accumulator.  An exception is caught
and logged by the source; the pages already processed keep their
contribution. -/
def backendText : BackendRun → String
  | .ok pages => accPages pages
  | .exnAfter pages => accPages pages

/-- The failures `extract_text_from_pdf` can raise:  `importError` models
`raise ImportError(...)` (no backend importable), `extractionFailed`
models `raise Exception("Could not extract text from PDF. ...")`. -/
inductive ExtractError where
  | importError
  | extractionFailed
deriving DecidableEq

/-- The value of the variable `text` after both backend sections:
pdfplumber first, PyPDF2 only when `not text` and PyPDF2 is importable. -/
def rawText (plumber pypdf : Option BackendRun) : String :=
  let text1 := match plumber with
    | some r => backendText r
    | none => ""
  if text1 = "" then
    match pypdf with
    | some r => backendText r
    | none => ""
  else text1

/-- Model of `extract_text_from_pdf` (source lines 28-61). -/
def extract_text_from_pdf (plumber pypdf : Option BackendRun) :
    Except ExtractError String :=
  if plumber.isNone && pypdf.isNone then .error .importError
  else if rawText plumber pypdf = "" then .error .extractionFailed
  else .ok (pyStrip (rawText plumber pypdf))

theorem pyStripL_eq_nil_iff (l : List Char) :
    pyStripL l = [] ↔ ∀ c ∈ l, isPySpace c = true := by
  unfold pyStripL
  rw [List.reverse_eq_nil_iff, List.dropWhile_eq_nil_iff]
  constructor
  · intro h c hc
    rcases List.mem_append.mp
        (by rw [List.takeWhile_append_dropWhile]; exact hc :
          c ∈ l.takeWhile isPySpace ++ l.dropWhile isPySpace) with h1 | h1
    · exact List.mem_takeWhile_imp h1
    · exact h c (List.mem_reverse.mpr h1)
  · intro h c hc
    exact h c ((List.dropWhile_sublist _).mem (List.mem_reverse.mp hc))

theorem pyStrip_eq_empty_iff (s : String) :
    pyStrip s = "" ↔ ∀ c ∈ s.data, isPySpace c = true := by
  unfold pyStrip
  rw [String.ext_iff]
  exact pyStripL_eq_nil_iff _

/-- Claim C3 (amended): `extract_text_from_pdf` fails with the import
error when no backend is importable, fails with the extraction error when
the accumulated raw text of the available backends is empty *before*
trimming (which covers an unreadable path), and otherwise returns the
trimmed raw text; that returned string is empty exactly when the raw text
consisted only of whitespace, so a whitespace-only extraction succeeds
with the empty string. -/
theorem claim_C3 (plumber pypdf : Option BackendRun) :
    (plumber = none → pypdf = none →
      extract_text_from_pdf plumber pypdf = .error .importError) ∧
    (¬(plumber = none ∧ pypdf = none) → rawText plumber pypdf = "" →
      extract_text_from_pdf plumber pypdf = .error .extractionFailed) ∧
    (¬(plumber = none ∧ pypdf = none) → rawText plumber pypdf ≠ "" →
      extract_text_from_pdf plumber pypdf = .ok (pyStrip (rawText plumber pypdf))) ∧
    (∀ s, extract_text_from_pdf plumber pypdf = .ok s →
      (s = "" ↔ ∀ c ∈ (rawText plumber pypdf).data, isPySpace c = true)) := by
  refine ⟨?_, ?_, ?_, ?_⟩
  · rintro rfl rfl
    rfl
  · intro hne hraw
    have hb : (plumber.isNone && pypdf.isNone) = false := by
      cases plumber <;> cases pypdf <;> simp_all
    simp [extract_text_from_pdf, hb, hraw]
  · intro hne hraw
    have hb : (plumber.isNone && pypdf.isNone) = false := by
      cases plumber <;> cases pypdf <;> simp_all
    simp [extract_text_from_pdf, hb, hraw]
  · intro s hs
    unfold extract_text_from_pdf at hs
    by_cases hb : (plumber.isNone && pypdf.isNone) = true
    · simp [hb] at hs
    · rw [Bool.not_eq_true] at hb
      by_cases hraw : rawText plumber pypdf = ""
      · simp [hb, hraw] at hs
      · simp only [hb, hraw, Bool.false_eq_true, if_false, Except.ok.injEq] at hs
        subst hs
        exact pyStrip_eq_empty_iff _

/-- Witness for claim C3 at a concrete configuration: pdfplumber alone,
yielding the single page text "hello". -/
theorem claim_C3_witness :
    (¬((some (BackendRun.ok [some "hello"]) : Option BackendRun) = none ∧
        (none : Option BackendRun) = none)) ∧
    rawText (some (.ok [some "hello"])) none ≠ "" ∧
    extract_text_from_pdf (some (.ok [some "hello"])) none =
      .ok (pyStrip (rawText (some (.ok [some "hello"])) none)) := by
  refine ⟨by simp, by decide, ?_⟩
  exact (claim_C3 (some (.ok [some "hello"])) none).2.2.1 (by simp) (by decide)

/-- Counterexample for claim C3 as stated: a single page whose extracted
text is the one-character string " " is truthy, so the emptiness check
`if not text` passes, yet `text.strip()` is empty — extraction succeeds
and returns the empty string instead of failing. -/
theorem claim_C3_counterexample :
    extract_text_from_pdf (some (.ok [some " "])) none = .ok "" := rfl

/-- Claim C2 (amended): a backend exception is caught, and the pages
already accumulated keep their text.  If the backend raised before any
page contributed text it is indeed treated as having produced no text —
extraction falls through to the next backend, or to terminal failure when
no other backend is importable.  But if the exception struck after some
pages contributed text, that partial text is kept: the next backend is
never consulted and the partial text (stripped) is returned, so
extraction is not all-or-nothing. -/
theorem claim_C2 (pages : List (Option String)) (pypdf : Option BackendRun) :
    (accPages pages = "" → pypdf ≠ none →
      extract_text_from_pdf (some (.exnAfter pages)) pypdf =
        extract_text_from_pdf none pypdf) ∧
    (accPages pages = "" → pypdf = none →
      extract_text_from_pdf (some (.exnAfter pages)) pypdf =
        .error .extractionFailed) ∧
    (accPages pages ≠ "" →
      extract_text_from_pdf (some (.exnAfter pages)) pypdf =
        .ok (pyStrip (accPages pages))) := by
  refine ⟨?_, ?_, ?_⟩
  · intro h hne
    cases pypdf with
    | none => exact absurd rfl hne
    | some r => simp [extract_text_from_pdf, rawText, backendText, h]
  · rintro h rfl
    simp [extract_text_from_pdf, rawText, backendText, h]
  · intro h
    cases pypdf <;>
      simp [extract_text_from_pdf, rawText, backendText, h]

/-- Witness for claim C2: pdfplumber raises after extracting "abc", so the
partial text "abc" is returned even though PyPDF2 is importable. -/
theorem claim_C2_witness :
    accPages [some "abc"] ≠ "" ∧
    extract_text_from_pdf (some (.exnAfter [some "abc"]))
        (some (.ok [some "full"])) = .ok (pyStrip (accPages [some "abc"])) := by
  refine ⟨by decide, ?_⟩
  exact (claim_C2 [some "abc"] (some (.ok [some "full"]))).2.2 (by decide)

/-- Counterexample for claim C2 as stated: pdfplumber raises mid-run
after extracting "abc" while PyPDF2 would have extracted "full"; the code
returns the partial text "abc" from the throwing backend instead of
treating it as "no text from this backend" and consulting PyPDF2. -/
theorem claim_C2_counterexample :
    extract_text_from_pdf (some (.exnAfter [some "abc"]))
        (some (.ok [some "full"])) = .ok "abc" ∧
    extract_text_from_pdf none (some (.ok [some "full"])) = .ok "full" ∧
    ("abc" : String) ≠ "full" := ⟨rfl, rfl, by decide⟩

/-!
## Skill Classifier: keyword fallback (`_fallback_skill_extraction`,
source lines 151-177)
-/

/-- The static keyword table `tech_keywords` (source lines 154-158), in
its declared order. -/
def tech_keywords : List (String × List String) :=
  [("programming_languages",
    ["Python", "JavaScript", "Java", "C++", "C#", "Go", "Rust",
     "TypeScript", "SQL", "R", "Swift", "Kotlin"]),
   ("frameworks",
    ["React", "Vue", "Angular", "Django", "Flask", "FastAPI", "Spring",
     "Node.js", "Express", "TensorFlow", "PyTorch"]),
   ("tools",
    ["Git", "Docker", "Kubernetes", "AWS", "Azure", "GCP", "Jenkins",
     "CI/CD", "Linux", "MongoDB", "PostgreSQL", "Redis"])]

/-- The structured classification record of spec section 3.  The Python
source passes it around as an untyped dict of exactly this shape. -/
structure SkillRecord where
  technical : List (String × List String)
  soft_skills : List String
  domains : List String
  certifications : List String
  experience_levels : List (String × String)
  skill_relationships : List (String × String × String)
deriving DecidableEq

/-- The matching test of the fallback classifier:
`keyword.lower() in resume_lower` (source line 165). -/
def keywordMatches (resume_text : String) (keyword : String) : Bool :=
  containsSub (pyLower keyword).data (pyLower resume_text).data

/-- Model of `_fallback_skill_extraction` (source lines 151-177): scan the
lowercased resume text for each table keyword, keeping table order, and
return every non-technical field empty. -/
def _fallback_skill_extraction (resume_text : String) : SkillRecord :=
  { technical := tech_keywords.map
      (fun kv => (kv.1, kv.2.filter (keywordMatches resume_text)))
    soft_skills := []
    domains := []
    certifications := []
    experience_levels := []
    skill_relationships := [] }

/-!
## Tree Builder (`build_skill_tree`, source lines 179-230)
-/

/-- ASCII letters are the cased characters appearing in this program. -/
def isCasedAscii (c : Char) : Bool :=
  decide (('a' ≤ c ∧ c ≤ 'z') ∨ ('A' ≤ c ∧ c ≤ 'Z'))

/-- The character stream of Python `str.title`: a cased character is
upper-cased when the previous character was not cased, lower-cased
otherwise; uncased characters pass through. -/
def pyTitleAux : Bool → List Char → List Char
  | _, [] => []
  | prevCased, c :: cs =>
    (if prevCased then asciiLower c else asciiUpper c) ::
      pyTitleAux (isCasedAscii c) cs

/-- Models Python `str.title()` (ASCII case mapping). -/
def pyTitle (s : String) : String :=
  String.mk (pyTitleAux false s.data)

/-- Models `category.replace("_", " ")`; the pattern is a single
character, so the replacement is a character map. -/
def underscoreToSpace (s : String) : String :=
  String.mk (s.data.map (fun c => if c = '_' then ' ' else c))

/-- The category label `category.replace("_", " ").title()` computed at
source line 198. -/
def titleKey (k : String) : String :=
  pyTitle (underscoreToSpace k)

/-- Spec-side reading of "replace underscores with spaces and capitalize
each word": words are the space-separated segments, and capitalizing
up-cases the first character of a word and lower-cases the rest (Python
`str.capitalize`).  Declared for comparison with the source-side
`titleKey`. -/
def capWordsAux : Bool → List Char → List Char
  | _, [] => []
  | atStart, c :: cs =>
    if c = ' ' then c :: capWordsAux true cs
    else (if atStart then asciiUpper c else asciiLower c) ::
      capWordsAux false cs

/-- Spec-side category-label formatting, to be compared with `titleKey`. -/
def capWordsSpec (s : String) : String :=
  String.mk (capWordsAux true s.data)

/-- The recursive visualization tree node.  The source builds dicts of two
shapes: internal nodes `{"name": ..., "children": [...]}` and leaf nodes
`{"name": ..., "type": ...}` (braces shown escaped in code below). -/
inductive Node where
  | branch (name : String) (children : List Node)
  | leaf (name ty : String)

/-- The technical-category child nodes built by the loop at source lines
195-201: one node per non-empty category, in the record's own key
order, children in list order tagged "skill". -/
def techCategoryNodes (technical : List (String × List String)) : List Node :=
  (technical.filter (fun kv => !kv.2.isEmpty)).map
    (fun kv =>
      Node.branch (titleKey kv.1) (kv.2.map (fun s => Node.leaf s "skill")))

/-- The children accumulated onto the root node (source lines 187-228):
technical, then soft skills, then domains, then certifications, each
section present only when non-empty. -/
def rootChildren (r : SkillRecord) : List Node :=
  (if (techCategoryNodes r.technical).isEmpty then []
   else [Node.branch "Technical Skills" (techCategoryNodes r.technical)]) ++
  (if r.soft_skills.isEmpty then []
   else [Node.branch "Soft Skills"
          (r.soft_skills.map (fun s => Node.leaf s "skill"))]) ++
  (if r.domains.isEmpty then []
   else [Node.branch "Domain Expertise"
          (r.domains.map (fun s => Node.leaf s "skill"))]) ++
  (if r.certifications.isEmpty then []
   else [Node.branch "Certifications"
          (r.certifications.map (fun s => Node.leaf s "certification"))])

/-- Model of `build_skill_tree` (source lines 179-230). -/
def build_skill_tree (r : SkillRecord) : Node :=
  Node.branch "Skills" (rootChildren r)

/-- Claim C6: `build_skill_tree` is a pure, total Lean function (it is
defined by structure, not by failure), and applied to an all-empty
SkillRecord it yields the root node "Skills" with an empty children
sequence. -/
theorem claim_C6 (r : SkillRecord)
    (htech : ∀ kv ∈ r.technical, kv.2 = ([] : List String))
    (hsoft : r.soft_skills = []) (hdom : r.domains = [])
    (hcert : r.certifications = []) :
    build_skill_tree r = Node.branch "Skills" [] := by
  have hfilter : r.technical.filter (fun kv => !kv.2.isEmpty) = [] := by
    rw [List.filter_eq_nil_iff]
    intro kv hkv
    simp [htech kv hkv]
  unfold build_skill_tree rootChildren techCategoryNodes
  rw [hfilter]
  simp [hsoft, hdom, hcert]

/-- Witness for claim C6 at the all-empty record (the technical mapping
carrying the three table categories with empty lists, as the fallback
produces on unmatched text). -/
theorem claim_C6_witness :
    (∀ kv ∈ [("programming_languages", ([] : List String)),
             ("frameworks", []), ("tools", [])], kv.2 = ([] : List String)) ∧
    build_skill_tree
      { technical := [("programming_languages", []), ("frameworks", []),
                      ("tools", [])]
        soft_skills := []
        domains := []
        certifications := []
        experience_levels := []
        skill_relationships := [] } = Node.branch "Skills" [] := by
  refine ⟨by decide, ?_⟩
  exact claim_C6 _ (by decide) rfl rfl rfl

/-- Claim C7: on a record whose only non-empty field is the technical
category `programming_languages = ["Python"]`, `build_skill_tree` yields
exactly the chain root "Skills" → "Technical Skills" →
"Programming Languages" → leaf "Python" tagged "skill", with no other
branches anywhere. -/
theorem claim_C7 (r : SkillRecord)
    (htech : r.technical.filter (fun kv => !kv.2.isEmpty) =
      [("programming_languages", ["Python"])])
    (hsoft : r.soft_skills = []) (hdom : r.domains = [])
    (hcert : r.certifications = []) :
    build_skill_tree r =
      Node.branch "Skills"
        [Node.branch "Technical Skills"
          [Node.branch "Programming Languages"
            [Node.leaf "Python" "skill"]]] := by
  unfold build_skill_tree rootChildren techCategoryNodes
  rw [htech]
  simp [hsoft, hdom, hcert]
  rfl

/-- Witness for claim C7 at the record holding exactly
`programming_languages = ["Python"]`. -/
theorem claim_C7_witness :
    ([(("programming_languages" : String), (["Python"] : List String))].filter
        (fun kv => !kv.2.isEmpty) = [("programming_languages", ["Python"])]) ∧
    build_skill_tree
      { technical := [("programming_languages", ["Python"])]
        soft_skills := []
        domains := []
        certifications := []
        experience_levels := []
        skill_relationships := [] } =
      Node.branch "Skills"
        [Node.branch "Technical Skills"
          [Node.branch "Programming Languages"
            [Node.leaf "Python" "skill"]]] := by
  refine ⟨by decide, ?_⟩
  exact claim_C7 _ (by decide) rfl rfl rfl

theorem titleAux_eq_capAux (l : List Char)
    (h : ∀ c ∈ l, c = ' ' ∨ ('a' ≤ c ∧ c ≤ 'z')) (b : Bool) :
    pyTitleAux (!b) l = capWordsAux b l := by
  induction l generalizing b with
  | nil => rfl
  | cons c cs ih =>
    have hc := h c (List.mem_cons_self _ _)
    have hrest : ∀ x ∈ cs, x = ' ' ∨ ('a' ≤ x ∧ x ≤ 'z') :=
      fun x hx => h x (List.mem_cons_of_mem _ hx)
    rcases hc with rfl | hc
    · have h1 : asciiLower ' ' = ' ' := by decide
      have h2 : asciiUpper ' ' = ' ' := by decide
      have h3 : isCasedAscii ' ' = false := by decide
      have := ih hrest true
      cases b <;>
        simp_all [pyTitleAux, capWordsAux]
    · have hne : c ≠ ' ' := by
        rintro rfl
        exact absurd hc.1 (by decide)
      have hcase : isCasedAscii c = true := by
        unfold isCasedAscii
        exact decide_eq_true (Or.inl hc)
    
      have hlow : asciiLower c = c := by
        unfold asciiLower
        rw [if_neg]
        rintro ⟨h1, h2⟩
        have := lt_of_lt_of_le (show c.val < 'a'.val by
          exact lt_of_le_of_lt h2 (by decide)) hc.1
        exact absurd this (lt_irrefl _)
      have := ih hrest false
      cases b <;>
        simp_all [pyTitleAux, capWordsAux, hne]

/-- Claim C8: for every non-empty technical category key the builder
creates a node labelled `key.replace("_", " ").title()`; on
lowercase-and-underscore keys (all schema keys have this shape) that
label is exactly "replace underscores with spaces and capitalize each
word", and in particular "cloud_platforms" renders "Cloud Platforms". -/
theorem claim_C8 :
    (∀ (technical : List (String × List String)) (k : String)
        (skills : List String), (k, skills) ∈ technical → skills ≠ [] →
      Node.branch (titleKey k) (skills.map (fun s => Node.leaf s "skill")) ∈
        techCategoryNodes technical) ∧
    (∀ r : SkillRecord, techCategoryNodes r.technical ≠ [] →
      Node.branch "Technical Skills" (techCategoryNodes r.technical) ∈
        rootChildren r) ∧
    (∀ k : String, (∀ c ∈ k.data, c = '_' ∨ ('a' ≤ c ∧ c ≤ 'z')) →
      titleKey k = capWordsSpec (underscoreToSpace k)) ∧
    titleKey "cloud_platforms" = "Cloud Platforms" := by
  refine ⟨?_, ?_, ?_, rfl⟩
  · intro technical k skills hmem hne
    unfold techCategoryNodes
    exact List.mem_map.mpr
      ⟨(k, skills), List.mem_filter.mpr ⟨hmem, by simp [hne]⟩, rfl⟩
  · intro r h
    unfold rootChildren
    have hfalse : (techCategoryNodes r.technical).isEmpty = false := by
      simp [List.isEmpty_iff, h]
    simp [hfalse]
  · intro k hk
    unfold titleKey pyTitle capWordsSpec underscoreToSpace
    congr 1
    have h' : ∀ c ∈ k.data.map (fun c => if c = '_' then ' ' else c),
        c = ' ' ∨ ('a' ≤ c ∧ c ≤ 'z') := by
      intro c hc
      rcases List.mem_map.mp hc with ⟨c0, hc0, rfl⟩
      rcases hk c0 hc0 with rfl | h0
      · left; simp
      · right
        have hne : c0 ≠ '_' := by
          rintro rfl
          exact absurd h0.1 (by decide)
        simpa [hne] using h0
    simpa using titleAux_eq_capAux _ h' true

/-- Witness for claim C8: the category key "cloud_platforms" holding one
entry "AWS". -/
theorem claim_C8_witness :
    ((("cloud_platforms" : String), (["AWS"] : List String)) ∈
        [(("cloud_platforms" : String), (["AWS"] : List String))] ∧
      (["AWS"] : List String) ≠ [] ∧
      Node.branch (titleKey "cloud_platforms")
          ([("AWS" : String)].map (fun s => Node.leaf s "skill")) ∈
        techCategoryNodes [("cloud_platforms", ["AWS"])]) ∧
    ((∀ c ∈ ("cloud_platforms" : String).data,
        c = '_' ∨ ('a' ≤ c ∧ c ≤ 'z')) ∧
      titleKey "cloud_platforms" = capWordsSpec
        (underscoreToSpace "cloud_platforms")) := by
  refine ⟨⟨by decide, by decide, ?_⟩, ⟨by decide, ?_⟩⟩
  · exact claim_C8.1 _ _ _ (by decide) (by decide)
  · exact claim_C8.2.2.1 _ (by decide)

/-!
## JSON (`json.dumps` with `indent=2`, and `json.loads`)

`json.dump(skill_tree, f, indent=2, ensure_ascii=False)` (source line 250)
and `json.dumps(skill_tree, indent=2)` (source line 553, `ensure_ascii`
defaulting to True) are modelled by one serializer parameterized by the
character escaper.  `json.loads` (source line 139) is modelled by a
recursive-descent parser over `List Char`, fuelled to keep it structurally
recursive; JSON numbers are kept as their lexemes (their numeric value is
never consumed by the program).
-/

/-- Parsed JSON values, as Python `json.loads` produces them. -/
inductive JsonValue where
  | null
  | bool (b : Bool)
  | num (lexeme : String)
  | str (s : String)
  | arr (items : List JsonValue)
  | obj (fields : List (String × JsonValue))

/-- Lower-case hex digit, as produced by the `"\\u%04x"` formatting of the
Python encoder. -/
def hexDigitChar (n : Nat) : Char :=
  if n < 10 then Char.ofNat (48 + n) else Char.ofNat (87 + n)

/-- The six-character escape `\uXXXX` for a code point below 0x10000. -/
def uEscape (n : Nat) : List Char :=
  '\\' :: 'u' :: hexDigitChar (n / 4096 % 16) :: hexDigitChar (n / 256 % 16) ::
    hexDigitChar (n / 16 % 16) :: [hexDigitChar (n % 16)]

/-- Character escaping of the Python encoder with `ensure_ascii=False`:
only the quote, the backslash and control characters are escaped. -/
def escNA (c : Char) : List Char :=
  if c = '"' then ['\\', '"']
  else if c = '\\' then ['\\', '\\']
  else if c = '\n' then ['\\', 'n']
  else if c = '\t' then ['\\', 't']
  else if c = '\r' then ['\\', 'r']
  else if c.toNat = 8 then ['\\', 'b']
  else if c.toNat = 12 then ['\\', 'f']
  else if c.toNat < 32 then uEscape c.toNat
  else [c]

/-- Character escaping of the Python encoder with `ensure_ascii=True`:
additionally every character outside printable ASCII is escaped, using a
surrogate pair above 0xFFFF. -/
def escA (c : Char) : List Char :=
  if c.toNat < 32 ∨ c = '"' ∨ c = '\\' then escNA c
  else if c.toNat < 127 then [c]
  else if c.toNat < 65536 then uEscape c.toNat
  else uEscape (55296 + (c.toNat - 65536) / 1024) ++
    uEscape (56320 + (c.toNat - 65536) % 1024)

/-- A serialized JSON string literal: quote, escaped characters, quote. -/
def escString (esc : Char → List Char) (s : String) : List Char :=
  '"' :: (s.data.map esc).flatten ++ ['"']

/-- An indentation run of `n` spaces. -/
def spaces (n : Nat) : List Char :=
  List.replicate n ' '

mutual

/-- Serialization of one tree node by `json.dumps(tree, indent=2)` at
enclosing indentation `k`: an object of two members, `"name"` and either
`"children"` (internal nodes) or `"type"` (leaves); a non-empty child
array puts each item on its own line at indentation `k+4`. -/
def serNode (esc : Char → List Char) : Nat → Node → List Char
  | k, .leaf n t =>
    '{' :: '\n' :: (spaces (k + 2) ++ (escString esc "name" ++ ':' :: ' ' ::
      (escString esc n ++ ',' :: '\n' :: (spaces (k + 2) ++
        (escString esc "type" ++ ':' :: ' ' :: (escString esc t ++ '\n' ::
          (spaces k ++ ['}'])))))))
  | k, .branch n [] =>
    '{' :: '\n' :: (spaces (k + 2) ++ (escString esc "name" ++ ':' :: ' ' ::
      (escString esc n ++ ',' :: '\n' :: (spaces (k + 2) ++
        (escString esc "children" ++ ':' :: ' ' :: ('[' :: ']' :: '\n' ::
          (spaces k ++ ['}'])))))))
  | k, .branch n (c :: cs) =>
    '{' :: '\n' :: (spaces (k + 2) ++ (escString esc "name" ++ ':' :: ' ' ::
      (escString esc n ++ ',' :: '\n' :: (spaces (k + 2) ++
        (escString esc "children" ++ ':' :: ' ' :: ('[' :: '\n' ::
          (spaces (k + 4) ++ (serNode esc (k + 4) c ++
            (serTail esc (k + 4) cs ++ '\n' :: (spaces (k + 2) ++ ']' :: '\n' ::
              (spaces k ++ ['}'])))))))))))

/-- The items after the first of a serialized child array: a comma, a
newline, the indentation, the item. -/
def serTail (esc : Char → List Char) : Nat → List Node → List Char
  | _, [] => []
  | k, c :: cs => ',' :: '\n' :: (spaces k ++ (serNode esc k c ++ serTail esc k cs))

end

/-- The JSON text written to the structured-data file:
`json.dump(skill_tree, f, indent=2, ensure_ascii=False)` (source lines
249-250). -/
def fileJson (t : Node) : String :=
  String.mk (serNode escNA 0 t)

/-- The JSON text substituted into the HTML template:
`skill_tree_json = json.dumps(skill_tree, indent=2)` (source line 553),
with `ensure_ascii` left at its default True. -/
def skill_tree_json (t : Node) : String :=
  String.mk (serNode escA 0 t)

mutual

/-- The dict/list value that `json.load` of the serialized tree yields. -/
def nodeJson : Node → JsonValue
  | .branch n cs => .obj [("name", .str n), ("children", .arr (nodeJsonList cs))]
  | .leaf n t => .obj [("name", .str n), ("type", .str t)]

/-- `nodeJson` over a list of children. -/
def nodeJsonList : List Node → List JsonValue
  | [] => []
  | c :: cs => nodeJson c :: nodeJsonList cs

end

/-- The whitespace characters of the JSON grammar, as skipped by
`json.loads`. -/
def jsonWsB (c : Char) : Bool :=
  decide (c = ' ' ∨ c = '\t' ∨ c = '\n' ∨ c = '\r')

/-- Skip JSON whitespace. -/
def skipWs : List Char → List Char
  | [] => []
  | c :: rest => if jsonWsB c then skipWs rest else c :: rest

/-- Value of one hex digit. -/
def hexVal (c : Char) : Option Nat :=
  if '0' ≤ c ∧ c ≤ '9' then some (c.toNat - 48)
  else if 'a' ≤ c ∧ c ≤ 'f' then some (c.toNat - 87)
  else if 'A' ≤ c ∧ c ≤ 'F' then some (c.toNat - 55)
  else none

/-- Decoding of a single-character string escape. -/
def escDecode (e : Char) : Option Char :=
  if e = '"' then some '"'
  else if e = '\\' then some '\\'
  else if e = '/' then some '/'
  else if e = 'b' then some (Char.ofNat 8)
  else if e = 'f' then some (Char.ofNat 12)
  else if e = 'n' then some '\n'
  else if e = 'r' then some '\r'
  else if e = 't' then some '\t'
  else none

/-- Parse the body of a JSON string literal after the opening quote,
returning the decoded characters and the input after the closing quote. -/
def parseStringBody : List Char → Option (List Char × List Char)
  | [] => none
  | c :: rest =>
    if c = '"' then some ([], rest)
    else if c = '\\' then
      match rest with
      | 'u' :: h1 :: h2 :: h3 :: h4 :: r2 =>
        match hexVal h1, hexVal h2, hexVal h3, hexVal h4 with
        | some a, some b, some v3, some v4 =>
          match parseStringBody r2 with
          | some (cs, r) =>
            some (Char.ofNat (((a * 16 + b) * 16 + v3) * 16 + v4) :: cs, r)
          | none => none
        | _, _, _, _ => none
      | e :: r2 =>
        match escDecode e with
        | some d =>
          match parseStringBody r2 with
          | some (cs, r) => some (d :: cs, r)
          | none => none
        | none => none
      | [] => none
    else
      match parseStringBody rest with
      | some (cs, r) => some (c :: cs, r)
      | none => none

/-- One decimal-digit test. -/
def isDigitB (c : Char) : Bool :=
  decide ('0' ≤ c ∧ c ≤ '9')

/-- Parse a JSON number (or the `NaN`/`Infinity` constants Python accepts)
keeping its lexeme; the numeric value is never consumed by the program. -/
def parseNumLit (l : List Char) : Option (JsonValue × List Char) :=
  match l with
  | 'N' :: 'a' :: 'N' :: r => some (.num "NaN", r)
  | 'I' :: 'n' :: 'f' :: 'i' :: 'n' :: 'i' :: 't' :: 'y' :: r =>
    some (.num "Infinity", r)
  | '-' :: 'I' :: 'n' :: 'f' :: 'i' :: 'n' :: 'i' :: 't' :: 'y' :: r =>
    some (.num "-Infinity", r)
  | _ =>
    let sign : List Char × List Char :=
      match l with
      | '-' :: r => (['-'], r)
      | _ => ([], l)
    let intPart := sign.2.takeWhile isDigitB
    let afterInt := sign.2.dropWhile isDigitB
    if intPart = [] then none
    else if intPart.length > 1 ∧ intPart.headD '0' = '0' then none
    else
      let fracTail :=
        match afterInt with
        | '.' :: r =>
          let fr := r.takeWhile isDigitB
          if fr = [] then none
          else some ('.' :: fr, r.dropWhile isDigitB)
        | _ => some ([], afterInt)
      match fracTail with
      | none => none
      | some (frac, afterFrac) =>
        let expTail :=
          match afterFrac with
          | 'e' :: '+' :: r =>
            let ex := r.takeWhile isDigitB
            if ex = [] then none
            else some ('e' :: '+' :: ex, r.dropWhile isDigitB)
          | 'e' :: '-' :: r =>
            let ex := r.takeWhile isDigitB
            if ex = [] then none
            else some ('e' :: '-' :: ex, r.dropWhile isDigitB)
          | 'e' :: r =>
            let ex := r.takeWhile isDigitB
            if ex = [] then none else some ('e' :: ex, r.dropWhile isDigitB)
          | 'E' :: '+' :: r =>
            let ex := r.takeWhile isDigitB
            if ex = [] then none
            else some ('E' :: '+' :: ex, r.dropWhile isDigitB)
          | 'E' :: '-' :: r =>
            let ex := r.takeWhile isDigitB
            if ex = [] then none
            else some ('E' :: '-' :: ex, r.dropWhile isDigitB)
          | 'E' :: r =>
            let ex := r.takeWhile isDigitB
            if ex = [] then none else some ('E' :: ex, r.dropWhile isDigitB)
          | _ => some ([], afterFrac)
        match expTail with
        | none => none
        | some (ex, rest) =>
          some (.num (String.mk (sign.1 ++ intPart ++ frac ++ ex)), rest)

mutual

/-- Fuelled recursive-descent JSON value parser; `json.loads` runs it with
ample fuel.  Returns the value and the unconsumed input. -/
def parseVal : Nat → List Char → Option (JsonValue × List Char)
  | 0, _ => none
  | f + 1, s =>
    match skipWs s with
    | [] => none
    | c :: rest =>
      if c = '{' then
        match skipWs rest with
        | '}' :: r2 => some (.obj [], r2)
        | r2 =>
          match parseMembers f r2 with
          | some (fields, r) => some (.obj fields, r)
          | none => none
      else if c = '[' then
        match skipWs rest with
        | ']' :: r2 => some (.arr [], r2)
        | r2 =>
          match parseItems f r2 with
          | some (items, r) => some (.arr items, r)
          | none => none
      else if c = '"' then
        match parseStringBody rest with
        | some (cs, r) => some (.str (String.mk cs), r)
        | none => none
      else
        match c :: rest with
        | 't' :: 'r' :: 'u' :: 'e' :: r => some (.bool true, r)
        | 'f' :: 'a' :: 'l' :: 's' :: 'e' :: r => some (.bool false, r)
        | 'n' :: 'u' :: 'l' :: 'l' :: r => some (.null, r)
        | l => parseNumLit l

/-- Parse the members of a non-empty object, the opening brace and
leading whitespace already consumed, through the closing brace. -/
def parseMembers : Nat → List Char → Option (List (String × JsonValue) × List Char)
  | 0, _ => none
  | f + 1, s =>
    match s with
    | '"' :: rest =>
      match parseStringBody rest with
      | some (key, r1) =>
        match skipWs r1 with
        | ':' :: r2 =>
          match parseVal f r2 with
          | some (v, r3) =>
            match skipWs r3 with
            | ',' :: r4 =>
              match parseMembers f (skipWs r4) with
              | some (fields, r5) => some ((String.mk key, v) :: fields, r5)
              | none => none
            | '}' :: r4 => some ([(String.mk key, v)], r4)
            | _ => none
          | none => none
        | _ => none
      | none => none
    | _ => none

/-- Parse the items of a non-empty array, the opening bracket and leading
whitespace already consumed, through the closing bracket. -/
def parseItems : Nat → List Char → Option (List JsonValue × List Char)
  | 0, _ => none
  | f + 1, s =>
    match parseVal f s with
    | some (v, r1) =>
      match skipWs r1 with
      | ',' :: r2 =>
        match parseItems f (skipWs r2) with
        | some (vs, r3) => some (v :: vs, r3)
        | none => none
      | ']' :: r2 => some ([v], r2)
      | _ => none
    | none => none

end

/-- Model of Python `json.loads`: parse one value with ample fuel and
require only whitespace to remain. -/
def jsonLoads (s : String) : Option JsonValue :=
  match parseVal (2 * s.data.length + 2) s.data with
  | some (v, rest) => if skipWs rest = [] then some v else none
  | none => none

mutual

/-- Decode the parsed JSON of a serialized tree back into a `Node`; the
inverse reading of `nodeJson`, defined only on the two object shapes the
serializer produces. -/
def jsonToNode : JsonValue → Option Node
  | .obj [("name", .str n), ("children", .arr cs)] =>
    match jsonToNodeList cs with
    | some ns => some (.branch n ns)
    | none => none
  | .obj [("name", .str n), ("type", .str t)] => some (.leaf n t)
  | _ => none

/-- `jsonToNode` over a list of children. -/
def jsonToNodeList : List JsonValue → Option (List Node)
  | [] => some []
  | v :: vs =>
    match jsonToNode v, jsonToNodeList vs with
    | some n, some ns => some (n :: ns)
    | _, _ => none

end

theorem charOfNat_toNat (c : Char) : Char.ofNat c.toNat = c := by
  unfold Char.ofNat
  rw [dif_pos (show c.toNat.isValidChar from c.valid)]
  apply Char.eq_of_val_eq
  rfl

theorem hexVal_hexDigitChar (m : Nat) (h : m < 16) :
    hexVal (hexDigitChar m) = some m := by
  interval_cases m <;> rfl

theorem skipWs_cons_not_ws (c : Char) (l : List Char) (h : jsonWsB c = false) :
    skipWs (c :: l) = c :: l := by
  simp [skipWs, h]

theorem spaces_all_ws (n : Nat) : ∀ c ∈ spaces n, jsonWsB c = true := by
  intro c hc
  rcases List.eq_of_mem_replicate hc with rfl
  rfl

theorem skipWs_ws_append (w l : List Char) (h : ∀ c ∈ w, jsonWsB c = true) :
    skipWs (w ++ l) = skipWs l := by
  induction w with
  | nil => rfl
  | cons c w ih =>
    have hc := h c (List.mem_cons_self _ _)
    simp only [List.cons_append, skipWs, hc, if_true]
    exact ih (fun x hx => h x (List.mem_cons_of_mem _ hx))

theorem char_eq_ofNat_of_toNat {c : Char} {n : Nat} (h : c.toNat = n) :
    c = Char.ofNat n := by
  subst h
  exact (charOfNat_toNat c).symm

theorem parseStringBody_esc (l tail : List Char) :
    parseStringBody ((l.map escNA).flatten ++ '"' :: tail) = some (l, tail) := by
  induction l with
  | nil =>
    unfold parseStringBody
    simp
  | cons c cs ih =>
    simp only [List.map_cons, List.flatten_cons, List.append_assoc]
    by_cases hq : c = '"'
    · subst hq
      simp [escNA, parseStringBody, escDecode, ih]
    · by_cases hb : c = '\\'
      · subst hb
        simp [escNA, parseStringBody, escDecode, ih]
      · by_cases hn : c = '\n'
        · subst hn
          simp [escNA, parseStringBody, escDecode, ih]
        · by_cases ht : c = '\t'
          · subst ht
            simp [escNA, parseStringBody, escDecode, ih]
          · by_cases hr : c = '\r'
            · subst hr
              simp [escNA, parseStringBody, escDecode, ih]
            · by_cases h8 : c.toNat = 8
              · rw [char_eq_ofNat_of_toNat h8]
                simp [escNA, parseStringBody, escDecode, ih]
              · by_cases h12 : c.toNat = 12
                · rw [char_eq_ofNat_of_toNat h12]
                  simp [escNA, parseStringBody, escDecode, ih]
                · by_cases hlt : c.toNat < 32
                  · have hesc : escNA c = uEscape c.toNat := by
                      simp [escNA, hq, hb, hn, ht, hr, h8, h12, hlt]
                    rw [hesc]
                    unfold uEscape
                    have e1 := hexVal_hexDigitChar (c.toNat / 4096 % 16)
                      (Nat.mod_lt _ (by omega))
                    have e2 := hexVal_hexDigitChar (c.toNat / 256 % 16)
                      (Nat.mod_lt _ (by omega))
                    have e3 := hexVal_hexDigitChar (c.toNat / 16 % 16)
                      (Nat.mod_lt _ (by omega))
                    have e4 := hexVal_hexDigitChar (c.toNat % 16)
                      (Nat.mod_lt _ (by omega))
                    have hv : ((c.toNat / 4096 % 16 * 16 + c.toNat / 256 % 16) * 16 +
                        c.toNat / 16 % 16) * 16 + c.toNat % 16 = c.toNat := by
                      omega
                    simp [parseStringBody, e1, e2, e3, e4, ih, hv,
                      charOfNat_toNat]
                  · have hesc : escNA c = [c] := by
                      simp [escNA, hq, hb, hn, ht, hr, h8, h12, hlt]
                    rw [hesc]
                    simp only [List.singleton_append]
                    rw [parseStringBody.eq_def]
                    simp [hq, hb, ih]

theorem stringMk_data (s : String) : String.mk s.data = s := rfl

mutual

def fuelNeed : Node → Nat
  | .leaf _ _ => 6
  | .branch _ cs => 6 + fuelList cs

def fuelList : List Node → Nat
  | [] => 0
  | c :: cs => 2 + fuelNeed c + fuelList cs

end

theorem fuelNeed_ge (t : Node) : 6 ≤ fuelNeed t := by
  cases t with
  | leaf n ty => simp [fuelNeed]
  | branch n cs => simp [fuelNeed]

theorem skipWs_serNode (esc : Char → List Char) (k : Nat) (t : Node)
    (z : List Char) : skipWs (serNode esc k t ++ z) = serNode esc k t ++ z := by
  cases t with
  | leaf n ty => simp [serNode, skipWs, jsonWsB]
  | branch n cs => cases cs <;> simp [serNode, skipWs, jsonWsB]

theorem parseVal_str_ws (f : Nat) (w : List Char)
    (hw : ∀ c ∈ w, jsonWsB c = true) (s : String) (tail : List Char) :
    parseVal (f + 1) (w ++ (escString escNA s ++ tail)) =
      some (.str s, tail) := by
  have h1 : escString escNA s ++ tail =
      '"' :: ((s.data.map escNA).flatten ++ '"' :: tail) := by
    simp [escString]
  have h2 : skipWs (w ++ '"' :: ((s.data.map escNA).flatten ++ '"' :: tail)) =
      '"' :: ((s.data.map escNA).flatten ++ '"' :: tail) := by
    rw [skipWs_ws_append _ _ hw]
    exact skipWs_cons_not_ws _ _ rfl
  rw [h1, parseVal.eq_def]
  simp [h2, parseStringBody_esc, stringMk_data]

theorem parseMembers_step_cons (f : Nat) (key : String) (V : List Char)
    (v : JsonValue) (r3 r4 : List Char) (fields : List (String × JsonValue))
    (r5 : List Char) (hv : parseVal f V = some (v, r3))
    (hr : skipWs r3 = ',' :: r4)
    (hnext : parseMembers f (skipWs r4) = some (fields, r5)) :
    parseMembers (f + 1) (escString escNA key ++ ':' :: V) =
      some ((key, v) :: fields, r5) := by
  have h1 : escString escNA key ++ ':' :: V =
      '"' :: ((key.data.map escNA).flatten ++ '"' :: (':' :: V)) := by
    simp [escString]
  have h2 : skipWs (':' :: V) = ':' :: V := skipWs_cons_not_ws _ _ rfl
  rw [h1, parseMembers.eq_def]
  simp [parseStringBody_esc, h2, hv, hr, hnext, stringMk_data]

theorem parseMembers_step_last (f : Nat) (key : String) (V : List Char)
    (v : JsonValue) (r3 r4 : List Char) (hv : parseVal f V = some (v, r3))
    (hr : skipWs r3 = '}' :: r4) :
    parseMembers (f + 1) (escString escNA key ++ ':' :: V) =
      some ([(key, v)], r4) := by
  have h1 : escString escNA key ++ ':' :: V =
      '"' :: ((key.data.map escNA).flatten ++ '"' :: (':' :: V)) := by
    simp [escString]
  have h2 : skipWs (':' :: V) = ':' :: V := skipWs_cons_not_ws _ _ rfl
  rw [h1, parseMembers.eq_def]
  simp [parseStringBody_esc, h2, hv, hr, stringMk_data]

theorem node_ind (P : Node → Prop)
    (hleaf : ∀ n t, P (.leaf n t))
    (hbranch : ∀ n cs, (∀ c ∈ cs, P c) → P (.branch n cs)) : ∀ t, P t := by
  intro t
  induction t using Node.rec (motive_2 := fun l => ∀ c ∈ l, P c) with
  | leaf n t => exact hleaf n t
  | branch n cs ih => exact hbranch n cs ih
  | nil =>
    rename_i c hc
    cases hc
  | cons hd tl hhd htl =>
    rename_i c hc
    cases hc with
    | head => exact hhd
    | tail _ h => exact htl c h

theorem skipWs_nl_spaces (m : Nat) (X : List Char) (hX : skipWs X = X) :
    skipWs ('\n' :: (spaces m ++ X)) = X := by
  have h : ('\n' :: (spaces m ++ X)) = (('\n' :: spaces m) ++ X) := by simp
  rw [h, skipWs_ws_append, hX]
  intro c hc
  rcases List.mem_cons.mp hc with rfl | hc
  · rfl
  · exact spaces_all_ws m c hc

theorem skipWs_escString (esc : Char → List Char) (s : String) (z : List Char) :
    skipWs (escString esc s ++ z) = escString esc s ++ z := by
  simp only [escString, List.cons_append]
  exact skipWs_cons_not_ws _ _ rfl

theorem skipWs_open_brace (l : List Char) : skipWs ('{' :: l) = '{' :: l :=
  skipWs_cons_not_ws _ _ rfl

theorem serNode_exists_cons (esc : Char → List Char) (k : Nat) (t : Node) :
    ∃ y, serNode esc k t = '{' :: y := by
  cases t with
  | leaf n ty => exact ⟨_, rfl⟩
  | branch n cs => cases cs <;> exact ⟨_, rfl⟩

theorem parseVal_emptyArr (f : Nat) (w : List Char)
    (hw : ∀ c ∈ w, jsonWsB c = true) (tail : List Char) :
    parseVal (f + 1) (w ++ ('[' :: ']' :: tail)) = some (.arr [], tail) := by
  have h2 : skipWs (w ++ ('[' :: ']' :: tail)) = '[' :: ']' :: tail := by
    rw [skipWs_ws_append _ _ hw]
    exact skipWs_cons_not_ws _ _ rfl
  have h3 : skipWs (']' :: tail) = ']' :: tail := skipWs_cons_not_ws _ _ rfl
  rw [parseVal.eq_def]
  simp [h2, h3]

theorem skipWs_comma (l : List Char) : skipWs (',' :: l) = ',' :: l :=
  skipWs_cons_not_ws _ _ rfl

theorem parseItems_ser (l : List Node) :
    ∀ (c : Node),
      (∀ x ∈ c :: l, ∀ (k : Nat) (rest : List Char) (g : Nat), fuelNeed x ≤ g →
        parseVal g (serNode escNA k x ++ rest) = some (nodeJson x, rest)) →
      ∀ (k : Nat) (w rest : List Char) (f : Nat),
        (∀ u ∈ w, jsonWsB u = true) →
        2 + fuelNeed c + fuelList l ≤ f →
        parseItems f (serNode escNA k c ++ (serTail escNA k l ++ (w ++ ']' :: rest))) =
          some (nodeJson c :: nodeJsonList l, rest) := by
  induction l with
  | nil =>
    intro c hP k w rest f hw hf
    obtain ⟨g, rfl⟩ : ∃ g, f = g + 1 := ⟨f - 1, by omega⟩
    rw [parseItems.eq_def]
    have hpv := hP c (List.mem_cons_self _ _) k (w ++ ']' :: rest) g
      (by simp [fuelList] at hf; omega)
    have hws : skipWs (w ++ ']' :: rest) = ']' :: rest := by
      rw [skipWs_ws_append _ _ hw]
      exact skipWs_cons_not_ws _ _ rfl
    simp [serTail, hpv, hws, nodeJsonList]
  | cons c2 l2 ih =>
    intro c hP k w rest f hw hf
    have hgc := fuelNeed_ge c
    obtain ⟨g, rfl⟩ : ∃ g, f = g + 1 := ⟨f - 1, by omega⟩
    rw [parseItems.eq_def]
    have hpv := hP c (List.mem_cons_self _ _) k
      (',' :: '\n' :: (spaces k ++ (serNode escNA k c2 ++
        (serTail escNA k l2 ++ (w ++ ']' :: rest))))) g
      (by simp [fuelList] at hf; omega)
    have hsk2 : skipWs ('\n' :: (spaces k ++ (serNode escNA k c2 ++
        (serTail escNA k l2 ++ (w ++ ']' :: rest))))) =
        serNode escNA k c2 ++ (serTail escNA k l2 ++ (w ++ ']' :: rest)) :=
      skipWs_nl_spaces _ _ (skipWs_serNode _ _ _ _)
    have hih := ih c2 (fun x hx => hP x (List.mem_cons_of_mem _ hx)) k w rest g hw
      (by simp [fuelList] at hf ⊢; omega)
    simp [serTail, hpv, skipWs_comma, hsk2, hih, nodeJsonList]

theorem parseVal_arr_ser (c0 : Node) (cs2 : List Node)
    (hP : ∀ x ∈ c0 :: cs2, ∀ (k : Nat) (rest : List Char) (h : Nat),
      fuelNeed x ≤ h →
      parseVal h (serNode escNA k x ++ rest) = some (nodeJson x, rest))
    (k : Nat) (rest : List Char) (f : Nat)
    (hf : 3 + fuelNeed c0 + fuelList cs2 ≤ f) :
    parseVal f (' ' :: ('[' :: '\n' :: (spaces (k + 4) ++ (serNode escNA (k + 4) c0 ++
      (serTail escNA (k + 4) cs2 ++ '\n' :: (spaces (k + 2) ++ ']' :: rest)))))) =
      some (.arr (nodeJson c0 :: nodeJsonList cs2), rest) := by
  obtain ⟨g, rfl⟩ : ∃ g, f = g + 1 := ⟨f - 1, by omega⟩
  rw [parseVal.eq_def]
  have hsk1 : skipWs (' ' :: ('[' :: '\n' :: (spaces (k + 4) ++
      (serNode escNA (k + 4) c0 ++ (serTail escNA (k + 4) cs2 ++ '\n' ::
        (spaces (k + 2) ++ ']' :: rest)))))) =
      '[' :: '\n' :: (spaces (k + 4) ++ (serNode escNA (k + 4) c0 ++
        (serTail escNA (k + 4) cs2 ++ '\n' :: (spaces (k + 2) ++ ']' :: rest)))) := by
    show skipWs ([' '] ++ _) = _
    rw [skipWs_ws_append _ _ (by decide)]
    exact skipWs_cons_not_ws _ _ rfl
  have hsk2 : skipWs ('\n' :: (spaces (k + 4) ++ (serNode escNA (k + 4) c0 ++
      (serTail escNA (k + 4) cs2 ++ '\n' :: (spaces (k + 2) ++ ']' :: rest))))) =
      serNode escNA (k + 4) c0 ++ (serTail escNA (k + 4) cs2 ++ '\n' ::
        (spaces (k + 2) ++ ']' :: rest)) :=
    skipWs_nl_spaces _ _ (skipWs_serNode _ _ _ _)
  have hitems := parseItems_ser cs2 c0 hP (k + 4) ('\n' :: spaces (k + 2)) rest g
    (by intro u hu; rcases List.mem_cons.mp hu with rfl | hu
        · rfl
        · exact spaces_all_ws _ u hu)
    (by omega)
  have hw2 : ('\n' :: spaces (k + 2)) ++ ']' :: rest =
      '\n' :: (spaces (k + 2) ++ ']' :: rest) := by simp
  rw [hw2] at hitems
  obtain ⟨y, hy⟩ := serNode_exists_cons escNA (k + 4) c0
  rw [hy] at hitems hsk2 hsk1 ⊢
  simp only [List.cons_append, List.append_assoc] at hsk1 hsk2 hitems ⊢
  rw [hsk1]
  simp [hsk2, hitems]

theorem parseVal_serNode (t : Node) : ∀ (k : Nat) (rest : List Char) (f : Nat),
    fuelNeed t ≤ f →
    parseVal f (serNode escNA k t ++ rest) = some (nodeJson t, rest) := by
  induction t using node_ind with
  | hleaf n ty =>
    intro k rest f hf
    have h6 : 6 ≤ f := le_trans (fuelNeed_ge _) hf
    obtain ⟨f1, rfl⟩ : ∃ g, f = g + 1 := ⟨f - 1, by omega⟩
    obtain ⟨f2, rfl⟩ : ∃ g, f1 = g + 1 := ⟨f1 - 1, by omega⟩
    obtain ⟨f3, rfl⟩ : ∃ g, f2 = g + 1 := ⟨f2 - 1, by omega⟩
    obtain ⟨f4, rfl⟩ : ∃ g, f3 = g + 1 := ⟨f3 - 1, by omega⟩
    simp only [serNode, List.cons_append, List.append_assoc, List.singleton_append]
    rw [parseVal.eq_def]
    have hv1 : parseVal (f4 + 1 + 1)
        (' ' :: (escString escNA n ++ ',' :: '\n' :: (spaces (k + 2) ++
          (escString escNA "type" ++ ':' :: ' ' :: (escString escNA ty ++ '\n' ::
            (spaces k ++ '}' :: rest)))))) =
        some (.str n, ',' :: '\n' :: (spaces (k + 2) ++
          (escString escNA "type" ++ ':' :: ' ' :: (escString escNA ty ++ '\n' ::
            (spaces k ++ '}' :: rest))))) := by
      simpa using parseVal_str_ws (f4 + 1) [' '] (by decide) n _
    have hv2 : parseVal (f4 + 1)
        (' ' :: (escString escNA ty ++ '\n' :: (spaces k ++ '}' :: rest))) =
        some (.str ty, '\n' :: (spaces k ++ '}' :: rest)) := by
      simpa using parseVal_str_ws f4 [' '] (by decide) ty _
    have hsk3 : skipWs ('\n' :: (spaces k ++ '}' :: rest)) = '}' :: rest :=
      skipWs_nl_spaces _ _ (skipWs_cons_not_ws _ _ rfl)
    have hsk2 : skipWs ('\n' :: (spaces (k + 2) ++
        (escString escNA "type" ++ ':' :: ' ' :: (escString escNA ty ++ '\n' ::
          (spaces k ++ '}' :: rest))))) =
        escString escNA "type" ++ ':' :: ' ' :: (escString escNA ty ++ '\n' ::
          (spaces k ++ '}' :: rest)) :=
      skipWs_nl_spaces _ _ (skipWs_escString _ _ _)
    have hm2 := parseMembers_step_last (f4 + 1) "type" _ _ _ _ hv2 hsk3
    have hm1 := parseMembers_step_cons (f4 + 1 + 1) "name" _ _ _ _ _ _ hv1
      (skipWs_cons_not_ws _ _ rfl) (by rw [hsk2]; exact hm2)
    have hsk0 : skipWs ('\n' :: (spaces (k + 2) ++
        (escString escNA "name" ++ ':' :: ' ' :: (escString escNA n ++ ',' :: '\n' ::
          (spaces (k + 2) ++ (escString escNA "type" ++ ':' :: ' ' ::
            (escString escNA ty ++ '\n' :: (spaces k ++ '}' :: rest)))))))) =
        escString escNA "name" ++ ':' :: ' ' :: (escString escNA n ++ ',' :: '\n' ::
          (spaces (k + 2) ++ (escString escNA "type" ++ ':' :: ' ' ::
            (escString escNA ty ++ '\n' :: (spaces k ++ '}' :: rest))))) :=
      skipWs_nl_spaces _ _ (skipWs_escString _ _ _)
    have hkey : escString escNA "name" ++ ':' :: ' ' ::
        (escString escNA n ++ ',' :: '\n' :: (spaces (k + 2) ++
          (escString escNA "type" ++ ':' :: ' ' :: (escString escNA ty ++ '\n' ::
            (spaces k ++ '}' :: rest))))) =
        '"' :: 'n' :: 'a' :: 'm' :: 'e' :: '"' :: ':' :: ' ' ::
        (escString escNA n ++ ',' :: '\n' :: (spaces (k + 2) ++
          (escString escNA "type" ++ ':' :: ' ' :: (escString escNA ty ++ '\n' ::
            (spaces k ++ '}' :: rest))))) := by
      rfl
    rw [hkey] at hm1 hsk0
    simp [skipWs_open_brace, hkey, hsk0, hm1, nodeJson]
  | hbranch n cs ihcs =>
    intro k rest f hf
    have h6 : 6 ≤ f := le_trans (fuelNeed_ge _) hf
    obtain ⟨f1, rfl⟩ : ∃ g, f = g + 1 := ⟨f - 1, by omega⟩
    obtain ⟨f2, rfl⟩ : ∃ g, f1 = g + 1 := ⟨f1 - 1, by omega⟩
    obtain ⟨f3, rfl⟩ : ∃ g, f2 = g + 1 := ⟨f2 - 1, by omega⟩
    obtain ⟨f4, rfl⟩ : ∃ g, f3 = g + 1 := ⟨f3 - 1, by omega⟩
    cases cs with
    | nil =>
      simp only [serNode, List.cons_append, List.append_assoc,
        List.singleton_append]
      rw [parseVal.eq_def]
      have hv1 : parseVal (f4 + 1 + 1)
          (' ' :: (escString escNA n ++ ',' :: '\n' :: (spaces (k + 2) ++
            (escString escNA "children" ++ ':' :: ' ' :: ('[' :: ']' :: '\n' ::
              (spaces k ++ '}' :: rest)))))) =
          some (.str n, ',' :: '\n' :: (spaces (k + 2) ++
            (escString escNA "children" ++ ':' :: ' ' :: ('[' :: ']' :: '\n' ::
              (spaces k ++ '}' :: rest))))) := by
        simpa using parseVal_str_ws (f4 + 1) [' '] (by decide) n _
      have hv2 : parseVal (f4 + 1)
          (' ' :: ('[' :: ']' :: '\n' :: (spaces k ++ '}' :: rest))) =
          some (.arr [], '\n' :: (spaces k ++ '}' :: rest)) := by
        simpa using parseVal_emptyArr f4 [' '] (by decide) _
      have hsk3 : skipWs ('\n' :: (spaces k ++ '}' :: rest)) = '}' :: rest :=
        skipWs_nl_spaces _ _ (skipWs_cons_not_ws _ _ rfl)
      have hsk2 : skipWs ('\n' :: (spaces (k + 2) ++
          (escString escNA "children" ++ ':' :: ' ' :: ('[' :: ']' :: '\n' ::
            (spaces k ++ '}' :: rest))))) =
          escString escNA "children" ++ ':' :: ' ' :: ('[' :: ']' :: '\n' ::
            (spaces k ++ '}' :: rest)) :=
        skipWs_nl_spaces _ _ (skipWs_escString _ _ _)
      have hm2 := parseMembers_step_last (f4 + 1) "children" _ _ _ _ hv2 hsk3
      have hm1 := parseMembers_step_cons (f4 + 1 + 1) "name" _ _ _ _ _ _ hv1
        (skipWs_cons_not_ws _ _ rfl) (by rw [hsk2]; exact hm2)
      have hsk0 : skipWs ('\n' :: (spaces (k + 2) ++
          (escString escNA "name" ++ ':' :: ' ' :: (escString escNA n ++ ',' :: '\n' ::
            (spaces (k + 2) ++ (escString escNA "children" ++ ':' :: ' ' ::
              ('[' :: ']' :: '\n' :: (spaces k ++ '}' :: rest)))))))) =
          escString escNA "name" ++ ':' :: ' ' :: (escString escNA n ++ ',' :: '\n' ::
            (spaces (k + 2) ++ (escString escNA "children" ++ ':' :: ' ' ::
              ('[' :: ']' :: '\n' :: (spaces k ++ '}' :: rest))))) :=
        skipWs_nl_spaces _ _ (skipWs_escString _ _ _)
      have hkey : escString escNA "name" ++ ':' :: ' ' ::
          (escString escNA n ++ ',' :: '\n' :: (spaces (k + 2) ++
            (escString escNA "children" ++ ':' :: ' ' :: ('[' :: ']' :: '\n' ::
              (spaces k ++ '}' :: rest))))) =
          '"' :: 'n' :: 'a' :: 'm' :: 'e' :: '"' :: ':' :: ' ' ::
          (escString escNA n ++ ',' :: '\n' :: (spaces (k + 2) ++
            (escString escNA "children" ++ ':' :: ' ' :: ('[' :: ']' :: '\n' ::
              (spaces k ++ '}' :: rest))))) := by
        rfl
      rw [hkey] at hm1 hsk0
      simp [skipWs_open_brace, hkey, hsk0, hm1, nodeJson, nodeJsonList]
    | cons c0 cs2 =>
      have harr := parseVal_arr_ser c0 cs2 ihcs k
        ('\n' :: (spaces k ++ '}' :: rest)) (f4 + 1)
        (by simp [fuelNeed, fuelList] at hf; omega)
      simp only [serNode, List.cons_append, List.append_assoc,
        List.singleton_append]
      rw [parseVal.eq_def]
      have hv1 : parseVal (f4 + 1 + 1)
          (' ' :: (escString escNA n ++ ',' :: '\n' :: (spaces (k + 2) ++
            (escString escNA "children" ++ ':' :: ' ' :: ('[' :: '\n' ::
              (spaces (k + 4) ++ (serNode escNA (k + 4) c0 ++
                (serTail escNA (k + 4) cs2 ++ '\n' :: (spaces (k + 2) ++ ']' :: '\n' ::
                  (spaces k ++ '}' :: rest)))))))))) =
          some (.str n, ',' :: '\n' :: (spaces (k + 2) ++
            (escString escNA "children" ++ ':' :: ' ' :: ('[' :: '\n' ::
              (spaces (k + 4) ++ (serNode escNA (k + 4) c0 ++
                (serTail escNA (k + 4) cs2 ++ '\n' :: (spaces (k + 2) ++ ']' :: '\n' ::
                  (spaces k ++ '}' :: rest))))))))) := by
        simpa using parseVal_str_ws (f4 + 1) [' '] (by decide) n _
      have hv2 : parseVal (f4 + 1)
          (' ' :: ('[' :: '\n' :: (spaces (k + 4) ++ (serNode escNA (k + 4) c0 ++
            (serTail escNA (k + 4) cs2 ++ '\n' :: (spaces (k + 2) ++ ']' :: '\n' ::
              (spaces k ++ '}' :: rest))))))) =
          some (.arr (nodeJson c0 :: nodeJsonList cs2),
            '\n' :: (spaces k ++ '}' :: rest)) := by
        simpa using harr
      have hsk3 : skipWs ('\n' :: (spaces k ++ '}' :: rest)) = '}' :: rest :=
        skipWs_nl_spaces _ _ (skipWs_cons_not_ws _ _ rfl)
      have hsk2 : skipWs ('\n' :: (spaces (k + 2) ++
          (escString escNA "children" ++ ':' :: ' ' :: ('[' :: '\n' ::
            (spaces (k + 4) ++ (serNode escNA (k + 4) c0 ++
              (serTail escNA (k + 4) cs2 ++ '\n' :: (spaces (k + 2) ++ ']' :: '\n' ::
                (spaces k ++ '}' :: rest))))))))) =
          escString escNA "children" ++ ':' :: ' ' :: ('[' :: '\n' ::
            (spaces (k + 4) ++ (serNode escNA (k + 4) c0 ++
              (serTail escNA (k + 4) cs2 ++ '\n' :: (spaces (k + 2) ++ ']' :: '\n' ::
                (spaces k ++ '}' :: rest)))))) :=
        skipWs_nl_spaces _ _ (skipWs_escString _ _ _)
      have hm2 := parseMembers_step_last (f4 + 1) "children" _ _ _ _ hv2 hsk3
      have hm1 := parseMembers_step_cons (f4 + 1 + 1) "name" _ _ _ _ _ _ hv1
        (skipWs_cons_not_ws _ _ rfl) (by rw [hsk2]; exact hm2)
      have hsk0 : skipWs ('\n' :: (spaces (k + 2) ++
          (escString escNA "name" ++ ':' :: ' ' :: (escString escNA n ++ ',' :: '\n' ::
            (spaces (k + 2) ++ (escString escNA "children" ++ ':' :: ' ' ::
              ('[' :: '\n' :: (spaces (k + 4) ++ (serNode escNA (k + 4) c0 ++
                (serTail escNA (k + 4) cs2 ++ '\n' :: (spaces (k + 2) ++ ']' :: '\n' ::
                  (spaces k ++ '}' :: rest)))))))))))) =
          escString escNA "name" ++ ':' :: ' ' :: (escString escNA n ++ ',' :: '\n' ::
            (spaces (k + 2) ++ (escString escNA "children" ++ ':' :: ' ' ::
              ('[' :: '\n' :: (spaces (k + 4) ++ (serNode escNA (k + 4) c0 ++
                (serTail escNA (k + 4) cs2 ++ '\n' :: (spaces (k + 2) ++ ']' :: '\n' ::
                  (spaces k ++ '}' :: rest))))))))) :=
        skipWs_nl_spaces _ _ (skipWs_escString _ _ _)
      have hkey : escString escNA "name" ++ ':' :: ' ' ::
          (escString escNA n ++ ',' :: '\n' :: (spaces (k + 2) ++
            (escString escNA "children" ++ ':' :: ' ' :: ('[' :: '\n' ::
              (spaces (k + 4) ++ (serNode escNA (k + 4) c0 ++
                (serTail escNA (k + 4) cs2 ++ '\n' :: (spaces (k + 2) ++ ']' :: '\n' ::
                  (spaces k ++ '}' :: rest))))))))) =
          '"' :: 'n' :: 'a' :: 'm' :: 'e' :: '"' :: ':' :: ' ' ::
          (escString escNA n ++ ',' :: '\n' :: (spaces (k + 2) ++
            (escString escNA "children" ++ ':' :: ' ' :: ('[' :: '\n' ::
              (spaces (k + 4) ++ (serNode escNA (k + 4) c0 ++
                (serTail escNA (k + 4) cs2 ++ '\n' :: (spaces (k + 2) ++ ']' :: '\n' ::
                  (spaces k ++ '}' :: rest))))))))) := by
        rfl
      rw [hkey] at hm1 hsk0
      simp [skipWs_open_brace, hkey, hsk0, hm1, nodeJson, nodeJsonList]

theorem fuelNeed_le_serNode_length (t : Node) :
    ∀ (esc : Char → List Char) (k : Nat),
      fuelNeed t ≤ (serNode esc k t).length := by
  induction t using node_ind with
  | hleaf n ty =>
    intro esc k
    simp [serNode, fuelNeed, escString, spaces]
    omega
  | hbranch n cs ih =>
    intro esc k
    cases cs with
    | nil =>
      simp [serNode, fuelNeed, fuelList, escString, spaces]
      omega
    | cons c0 cs2 =>
      have hlist : ∀ (l : List Node),
          (∀ x ∈ l, ∀ (esc : Char → List Char) (k : Nat),
            fuelNeed x ≤ (serNode esc k x).length) →
          ∀ (esc : Char → List Char) (k : Nat),
            fuelList l ≤ (serTail esc k l).length := by
        intro l
        induction l with
        | nil =>
          intro _ esc k
          simp [fuelList, serTail]
        | cons a l2 ihl =>
          intro hx esc k
          have h1 := hx a (List.mem_cons_self _ _) esc k
          have h2 := ihl (fun x hx2 => hx x (List.mem_cons_of_mem _ hx2)) esc k
          simp only [fuelList, serTail, List.length_cons, List.length_append,
            spaces, List.length_replicate]
          omega
      have h1 := ih c0 (List.mem_cons_self _ _) esc (k + 4)
      have h2 := hlist cs2 (fun x hx => ih x (List.mem_cons_of_mem _ hx)) esc (k + 4)
      simp only [serNode, fuelNeed, fuelList, escString, spaces,
        List.length_cons, List.length_append, List.length_replicate,
        List.length_singleton]
      omega

/-- The structured-data file parses back: running the JSON parser on the
serialized tree yields exactly the dict/list value `nodeJson t`. -/
theorem jsonLoads_fileJson (t : Node) :
    jsonLoads (fileJson t) = some (nodeJson t) := by
  unfold jsonLoads fileJson
  have hdata : (String.mk (serNode escNA 0 t)).data = serNode escNA 0 t := rfl
  rw [hdata]
  have hfuel : fuelNeed t ≤ 2 * (serNode escNA 0 t).length + 2 := by
    have := fuelNeed_le_serNode_length t escNA 0
    omega
  have h := parseVal_serNode t 0 [] (2 * (serNode escNA 0 t).length + 2) hfuel
  rw [List.append_nil] at h
  rw [h]
  rfl

theorem jsonToNodeList_nodeJsonList (l : List Node)
    (h : ∀ c ∈ l, jsonToNode (nodeJson c) = some c) :
    jsonToNodeList (nodeJsonList l) = some l := by
  induction l with
  | nil => rfl
  | cons c0 l2 ihl =>
    have h0 := h c0 (List.mem_cons_self _ _)
    have h2 := ihl (fun x hx => h x (List.mem_cons_of_mem _ hx))
    simp [nodeJsonList, jsonToNodeList, h0, h2]

/-- Decoding after encoding is the identity: the parsed JSON value of a
tree maps back to an equal tree. -/
theorem jsonToNode_nodeJson (t : Node) : jsonToNode (nodeJson t) = some t := by
  induction t using node_ind with
  | hleaf n ty => rfl
  | hbranch n cs ih =>
    simp [nodeJson, jsonToNode, jsonToNodeList_nodeJsonList cs ih]

/-- Every character below 0x7F (printable ASCII and controls). -/
def asciiOnlyStr (s : String) : Bool :=
  s.data.all (fun c => decide (c.toNat < 127))

mutual

/-- All strings of the tree are ASCII. -/
def asciiOnly : Node → Bool
  | .leaf n ty => asciiOnlyStr n && asciiOnlyStr ty
  | .branch n cs => asciiOnlyStr n && asciiOnlyList cs

/-- `asciiOnly` over a list of children. -/
def asciiOnlyList : List Node → Bool
  | [] => true
  | c :: cs => asciiOnly c && asciiOnlyList cs

end

theorem escA_eq_escNA {c : Char} (h : c.toNat < 127) : escA c = escNA c := by
  unfold escA
  by_cases h1 : c.toNat < 32 ∨ c = '"' ∨ c = '\\'
  · rw [if_pos h1]
  · rw [if_neg h1, if_pos h]
    push_neg at h1
    obtain ⟨h32, hq, hb⟩ := h1
    have hn : c ≠ '\n' := by
      rintro rfl
      exact absurd h32 (by decide)
    have ht : c ≠ '\t' := by
      rintro rfl
      exact absurd h32 (by decide)
    have hr : c ≠ '\r' := by
      rintro rfl
      exact absurd h32 (by decide)
    have h8 : ¬c.toNat = 8 := by
      omega
    have h12 : ¬c.toNat = 12 := by
      omega
    have h32n : ¬c.toNat < 32 := by
      omega
    simp [escNA, hq, hb, hn, ht, hr, h8, h12, h32n]

theorem escString_ascii (s : String) (h : asciiOnlyStr s = true) :
    escString escA s = escString escNA s := by
  unfold escString
  simp only [asciiOnlyStr, List.all_eq_true, decide_eq_true_eq] at h
  rw [List.map_congr_left (fun c hc => escA_eq_escNA (h c hc))]

theorem serNode_ascii (t : Node) :
    asciiOnly t = true → ∀ k, serNode escA k t = serNode escNA k t := by
  induction t using node_ind with
  | hleaf n ty =>
    intro h k
    simp only [asciiOnly, Bool.and_eq_true] at h
    simp [serNode, escString_ascii _ h.1, escString_ascii _ h.2,
      escString_ascii "name" rfl, escString_ascii "type" rfl]
  | hbranch n cs ih =>
    intro h k
    simp only [asciiOnly, Bool.and_eq_true] at h
    have hlist : ∀ (l : List Node),
        (∀ x ∈ l, asciiOnly x = true → ∀ k, serNode escA k x = serNode escNA k x) →
        asciiOnlyList l = true →
        ∀ k, serTail escA k l = serTail escNA k l := by
      intro l
      induction l with
      | nil =>
        intro _ _ k
        rfl
      | cons a l2 ihl =>
        intro hx hal k
        simp only [asciiOnlyList, Bool.and_eq_true] at hal
        simp [serTail, hx a (List.mem_cons_self _ _) hal.1 k,
          ihl (fun x hx2 => hx x (List.mem_cons_of_mem _ hx2)) hal.2 k]
    cases cs with
    | nil =>
      simp [serNode, escString_ascii _ h.1, escString_ascii "name" rfl,
        escString_ascii "children" rfl]
    | cons c0 cs2 =>
      have h0 : asciiOnly c0 = true ∧ asciiOnlyList cs2 = true := by
        have := h.2
        simp only [asciiOnlyList, Bool.and_eq_true] at this
        exact this
      simp [serNode, escString_ascii _ h.1, escString_ascii "name" rfl,
        escString_ascii "children" rfl,
        ih c0 (List.mem_cons_self _ _) h0.1,
        hlist cs2 (fun x hx => ih x (List.mem_cons_of_mem _ hx)) h0.2]

/-- On ASCII-only trees the two serializations coincide. -/
theorem skill_tree_json_eq_fileJson (t : Node) (h : asciiOnly t = true) :
    skill_tree_json t = fileJson t := by
  unfold skill_tree_json fileJson
  rw [serNode_ascii t h 0]

/-!
## Template substitution (`html_content = html_template.replace(...)`,
source lines 552-557)
-/

/-- Python `str.replace` over character lists: left-to-right,
non-overlapping replacement of every occurrence; defined for the
non-empty patterns the program uses (an empty pattern is returned
unchanged). -/
def replaceAllL (pat repl : List Char) : List Char → List Char
  | [] => []
  | c :: rest =>
    if pat.isEmpty then c :: rest
    else if pat.isPrefixOf (c :: rest) then
      repl ++ replaceAllL pat repl (List.drop pat.length (c :: rest))
    else
      c :: replaceAllL pat repl rest
termination_by l => l.length
decreasing_by
  · simp only [List.length_drop, List.length_cons]
    have : ¬pat.isEmpty = true := by assumption
    have hp : pat ≠ [] := by
      simpa [List.isEmpty_iff] using this
    have : 1 ≤ pat.length := List.length_pos.mpr hp
    omega
  · simp

/-- Models Python `str.replace(pat, repl)`. -/
def pyReplace (s pat repl : String) : String :=
  String.mk (replaceAllL pat.data repl.data s.data)

/-- Number of positions at which `pat` occurs in the list. -/
def countOccur (pat : List Char) : List Char → Nat
  | [] => 0
  | c :: rest =>
    (if pat.isPrefixOf (c :: rest) then 1 else 0) + countOccur pat rest

/-- Bounded occurrence scan: no occurrence of `pat` starts at any of the
first `n` positions of `s`.  Kept tail-recursive so chunked facts about
the template evaluate within the kernel. -/
def noStartWithin (pat : List Char) : Nat → List Char → Bool
  | 0, _ => true
  | _ + 1, [] => true
  | n + 1, c :: rest =>
    if pat.isPrefixOf (c :: rest) then false else noStartWithin pat n rest

theorem isPrefixOf_take (pat l : List Char) :
    pat.isPrefixOf l = pat.isPrefixOf (l.take pat.length) := by
  induction pat generalizing l with
  | nil => simp [List.isPrefixOf]
  | cons a p ih =>
    cases l with
    | nil => simp [List.isPrefixOf]
    | cons b l =>
      simp only [List.length_cons, List.take_succ_cons, List.isPrefixOf]
      rw [ih l]

theorem noStartWithin_spec (pat : List Char) (hpat : pat ≠ []) :
    ∀ (n : Nat) (s : List Char), noStartWithin pat n s = true →
      ∀ i < n, pat.isPrefixOf (List.drop i s) = false := by
  intro n
  induction n with
  | zero =>
    intro s _ i hi
    omega
  | succ m ih =>
    intro s h i hi
    cases s with
    | nil =>
      obtain ⟨p0, pt, rfl⟩ : ∃ p0 pt, pat = p0 :: pt := by
        cases pat with
        | nil => exact absurd rfl hpat
        | cons p0 pt => exact ⟨p0, pt, rfl⟩
      simp [List.isPrefixOf]
    | cons c rest =>
      rw [noStartWithin.eq_def] at h
      by_cases hp : pat.isPrefixOf (c :: rest) = true
      · simp [hp] at h
      · have hp2 : pat.isPrefixOf (c :: rest) = false := Bool.eq_false_iff.mpr hp
        cases i with
        | zero => exact hp2
        | succ j =>
          simp only [hp2, Bool.false_eq_true, if_false] at h
          exact ih rest h j (by omega)

theorem prefix_drop_trunc (pat chunk rest : List Char) (i : Nat)
    (hi : i ≤ chunk.length) :
    pat.isPrefixOf (List.drop i (chunk ++ rest)) =
      pat.isPrefixOf (List.drop i (chunk ++ rest.take pat.length)) := by
  rw [List.drop_append_of_le_length hi, List.drop_append_of_le_length hi]
  rw [isPrefixOf_take pat (List.drop i chunk ++ rest),
    isPrefixOf_take pat (List.drop i chunk ++ rest.take pat.length)]
  congr 1
  rw [List.take_append_eq_append_take, List.take_append_eq_append_take]
  congr 1
  rw [List.take_take]
  congr 1
  omega

theorem noStart_prefix_combine (pat c1 r : List Char) (n : Nat) (hpat : pat ≠ [])
    (h1 : noStartWithin pat c1.length (c1 ++ r.take pat.length) = true)
    (h2 : ∀ i < n, pat.isPrefixOf (List.drop i r) = false) :
    ∀ i < c1.length + n, pat.isPrefixOf (List.drop i (c1 ++ r)) = false := by
  intro i hi
  by_cases hc : i < c1.length
  · rw [prefix_drop_trunc pat c1 r i (by omega)]
    exact noStartWithin_spec pat hpat _ _ h1 i hc
  · have heq : i = c1.length + (i - c1.length) := by omega
    rw [heq, List.drop_append]
    exact h2 _ (by omega)

theorem noStart_chunk_step (pat chunk rest : List Char) (hpat : pat ≠ [])
    (hchunk : noStartWithin pat chunk.length (chunk ++ rest.take pat.length) = true)
    (hrest : ∀ i, pat.isPrefixOf (List.drop i rest) = false) :
    ∀ i, pat.isPrefixOf (List.drop i (chunk ++ rest)) = false := by
  intro i
  by_cases hc : i < chunk.length
  · rw [prefix_drop_trunc pat chunk rest i (by omega)]
    exact noStartWithin_spec pat hpat _ _ hchunk i hc
  · have heq : i = chunk.length + (i - chunk.length) := by omega
    rw [heq, List.drop_append]
    exact hrest _

theorem noOcc_nil (pat : List Char) (hpat : pat ≠ []) :
    ∀ i, pat.isPrefixOf (List.drop i ([] : List Char)) = false := by
  intro i
  obtain ⟨p0, pt, rfl⟩ : ∃ p0 pt, pat = p0 :: pt := by
    cases pat with
    | nil => exact absurd rfl hpat
    | cons p0 pt => exact ⟨p0, pt, rfl⟩
  simp [List.isPrefixOf]

theorem noOcc_of_append (pat a b : List Char)
    (h : ∀ i, pat.isPrefixOf (List.drop i (a ++ b)) = false) :
    ∀ i, pat.isPrefixOf (List.drop i b) = false := by
  intro i
  have := h (a.length + i)
  rwa [List.drop_append] at this

theorem countOccur_eq_zero (pat : List Char) :
    ∀ s, (∀ i, pat.isPrefixOf (List.drop i s) = false) →
      countOccur pat s = 0 := by
  intro s
  induction s with
  | nil =>
    intro _
    rfl
  | cons c rest ih =>
    intro h
    have h0 := h 0
    simp only [List.drop_zero] at h0
    simp only [countOccur, h0, Bool.false_eq_true, if_false, Nat.zero_add]
    exact ih (fun i => h (i + 1))

theorem countOccur_append_of_noStart (pat : List Char) :
    ∀ (pre rest : List Char),
      (∀ i < pre.length, pat.isPrefixOf (List.drop i (pre ++ rest)) = false) →
      countOccur pat (pre ++ rest) = countOccur pat rest := by
  intro pre
  induction pre with
  | nil =>
    intro rest _
    rfl
  | cons a pre2 ih =>
    intro rest hpre
    have h0 := hpre 0 (by simp)
    simp only [List.drop_zero, List.cons_append] at h0
    simp only [List.cons_append, countOccur]
    show (if pat.isPrefixOf (a :: (pre2 ++ rest)) = true then 1 else 0) +
      countOccur pat (pre2 ++ rest) = countOccur pat rest
    rw [h0]
    simp only [Bool.false_eq_true, if_false, Nat.zero_add]
    exact ih rest (fun i hi => by
      have := hpre (i + 1) (by simp; omega)
      simpa using this)

theorem containsSub_eq_false (pat s : List Char)
    (h : ∀ i, pat.isPrefixOf (List.drop i s) = false) :
    containsSub pat s = false := by
  by_contra hc
  rw [Bool.not_eq_false, containsSub_iff] at hc
  obtain ⟨a, b, rfl⟩ := hc
  have hfalse := h a.length
  rw [List.append_assoc, List.drop_left] at hfalse
  have htrue : pat.isPrefixOf (pat ++ b) = true :=
    (isPrefixOf_iff_append pat (pat ++ b)).mpr ⟨b, rfl⟩
  rw [hfalse] at htrue
  simp at htrue

theorem replaceAllL_no_occ (pat repl : List Char) :
    ∀ s, containsSub pat s = false → replaceAllL pat repl s = s := by
  intro s
  induction s with
  | nil =>
    intro _
    rw [replaceAllL.eq_def]
  | cons c rest ih =>
    intro h
    simp only [containsSub, Bool.or_eq_false_iff] at h
    have hne : pat.isEmpty = false := by
      cases pat with
      | nil => exact absurd h.1 (by simp [List.isPrefixOf])
      | cons _ _ => rfl
    rw [replaceAllL.eq_def]
    simp [hne, h.1, ih h.2]

theorem replaceAllL_split (pat repl : List Char) (p0 : Char) (pt suf : List Char)
    (hpat : pat = p0 :: pt) :
    ∀ (pre : List Char),
      (∀ i < pre.length,
        pat.isPrefixOf (List.drop i (pre ++ (pat ++ suf))) = false) →
      replaceAllL pat repl (pre ++ (pat ++ suf)) =
        pre ++ (repl ++ replaceAllL pat repl suf) := by
  intro pre
  induction pre with
  | nil =>
    intro _
    simp only [List.nil_append]
    rw [replaceAllL.eq_def]
    subst hpat
    have hpref : (p0 :: pt).isPrefixOf ((p0 :: pt) ++ suf) = true := by
      rw [isPrefixOf_iff_append]
      exact ⟨suf, rfl⟩
    simp only [List.cons_append] at hpref ⊢
    simp [hpref, List.drop_left]
  | cons a pre2 ih =>
    intro hpre
    have h0 := hpre 0 (by simp)
    simp only [List.drop_zero, List.cons_append] at h0
    have hne : pat.isEmpty = false := by
      subst hpat
      rfl
    rw [List.cons_append, replaceAllL.eq_def]
    simp only [hne, Bool.false_eq_true, if_false, h0]
    rw [ih (fun i hi => by
      have := hpre (i + 1) (by simp; omega)
      simpa using this)]
    simp
/-- First half of the template text before the substitution marker. -/
def templatePreA : String :=
  "<!DOCTYPE html>\n<html lang=\"en\">\n<head>\n    <meta charset=\"UTF-8\">\n    <meta name=\"viewport\" content=\"width=device-width, initial-scale=1.0\">\n    <title>Skill Tree Visualization</title>\n    <script src=\"https://d3js.org/d3.v7.min.js\"></script>\n    <style>\n        body \x7b\n            font-family: \x27Segoe UI\x27, Tahoma, Geneva, Verdana, sans-serif;\n            margin: 0;\n            padding: 20px;\n            background: linear-gradient(135deg, #667eea 0%, #764ba2 100%);\n            min-height: 100vh;\n        \x7d\n        .container \x7b\n            max-width: 1400px;\n            margin: 0 auto;\n            background: white;\n            border-radius: 15px;\n            padding: 30px;\n            box-shadow: 0 10px 40px rgba(0,0,0,0.2);\n        \x7d\n        h1 \x7b\n            text-align: center;\n            color: #333;\n            margin-bottom: 30px;\n            font-size: 2.5em;\n        \x7d\n        .skill-tree \x7b\n            width: 100%;\n            height: 800px;\n            border: 2px solid #e0e0e0;\n            border-radius: 10px;\n            overflow: auto;\n        \x7d\n        .node circle \x7b\n            fill: #fff;\n            stroke: #667eea;\n            stroke-width: 3px;\n            cursor: pointer;\n            transition: all 0.3s;\n        \x7d\n        .node circle:hover \x7b\n            stroke-width: 5px;\n            fill: #f0f0ff;\n        \x7d\n        .node--internal circle \x7b\n            fill: #764ba2;\n            stroke: #667eea;\n        \x7d\n        .node--leaf circle \x7b\n            fill: #4CAF50;\n            stroke: #45a049;\n        \x7d\n        .node--certification circle \x7b\n            fill: #FF9800;\n            stroke: #F"

/-- Second half of the template text before the substitution marker. -/
def templatePreB : String :=
  "57C00;\n        \x7d\n        .node text \x7b\n            font: 14px sans-serif;\n            font-weight: 500;\n            pointer-events: none;\n        \x7d\n        .link \x7b\n            fill: none;\n            stroke: #ccc;\n            stroke-width: 2px;\n        \x7d\n        .tooltip \x7b\n            position: absolute;\n            background: rgba(0, 0, 0, 0.8);\n            color: white;\n            padding: 10px;\n            border-radius: 5px;\n            pointer-events: none;\n            font-size: 12px;\n            opacity: 0;\n            transition: opacity 0.3s;\n        \x7d\n        .controls \x7b\n            margin-bottom: 20px;\n            text-align: center;\n        \x7d\n        button \x7b\n            background: #667eea;\n            color: white;\n            border: none;\n            padding: 10px 20px;\n            margin: 5px;\n            border-radius: 5px;\n            cursor: pointer;\n            font-size: 14px;\n            transition: background 0.3s;\n        \x7d\n        button:hover \x7b\n            background: #5568d3;\n        \x7d\n    </style>\n</head>\n<body>\n    <div class=\"container\">\n        <h1>🌳 Skill Tree Visualization</h1>\n        <div class=\"controls\">\n            <button onclick=\"zoomIn()\">Zoom In</button>\n            <button onclick=\"zoomOut()\">Zoom Out</button>\n            <button onclick=\"resetZoom()\">Reset</button>\n            <button onclick=\"expandAll()\">Expand All</button>\n            <button onclick=\"collapseAll()\">Collapse All</button>\n        </div>\n        <div class=\"skill-tree\" id=\"skill-tree\"></div>\n    </div>\n    <div class=\"tooltip\" id=\"tooltip\"></div>\n\n    <script>\n        const skillTreeData = "

/-- First third of the template text after the substitution marker. -/
def templateSufA : String :=
  ";\n        \n        let svg, g, zoom, root, tooltip;\n        let currentTransform = d3.zoomIdentity;\n        \n        function init() \x7b\n            tooltip = d3.select(\"#tooltip\");\n            \n            svg = d3.select(\"#skill-tree\")\n                .append(\"svg\")\n                .attr(\"width\", \"100%\")\n                .attr(\"height\", \"100%\");\n            \n            g = svg.append(\"g\");\n            \n            zoom = d3.zoom()\n                .scaleExtent([0.1, 3])\n                .on(\"zoom\", (event) => \x7b\n                    currentTransform = event.transform;\n                    g.attr(\"transform\", event.transform);\n                \x7d);\n            \n            svg.call(zoom);\n            \n            root = d3.hierarchy(skillTreeData);\n            root.x0 = 0;\n            root.y0 = 0;\n            root.descendants().forEach((d, i) => \x7b\n                d.id = i;\n                d._children = d.children;\n                if (d.depth > 2) d.children = null;\n            \x7d);\n            \n            update(root);\n        \x7d\n        \n        function update(source) \x7b\n            const treeLayout = d3.tree().size([800, 1000]);\n            treeLayout(root);\n            \n            const nodes = root.descendants();\n            const links = root.links();\n            \n            const node = g.selectAll(\"g.node\")\n                .data(nodes, d => d.id);\n            \n            const nodeEnter = node.enter()\n                .append(\"g\")\n                .attr(\"class\", d => \"node \" + (d.children ? \"node--internal\" : d.data.type === \"certification\" ? \"node--certification\" : \"node--leaf\"))\n                .attr(\"transform\", d => \x60translate($\x7bsource.y0\x7d,$\x7bsource.x0\x7d)\x60)\n                .on(\"click\", (event, d) => \x7b\n                    if (d.children) \x7b\n                        d._children = d.children;\n                        d.children = null;\n                    \x7d else \x7b\n                        d.children = d._children;\n                    \x7d\n                    update(d);\n   "

/-- Second third of the template text after the substitution marker. -/
def templateSufB : String :=
  "             \x7d)\n                .on(\"mouseover\", (event, d) => \x7b\n                    tooltip\n                        .style(\"opacity\", 1)\n                        .html(\x60<strong>$\x7bd.data.name\x7d</strong><br/>$\x7bd.depth > 0 ? \"Click to expand/collapse\" : \"\"\x7d\x60)\n                        .style(\"left\", (event.pageX + 10) + \"px\")\n                        .style(\"top\", (event.pageY - 10) + \"px\");\n                \x7d)\n                .on(\"mouseout\", () => \x7b\n                    tooltip.style(\"opacity\", 0);\n                \x7d);\n            \n            nodeEnter.append(\"circle\")\n                .attr(\"r\", d => d.depth === 0 ? 15 : d.depth === 1 ? 12 : 8)\n                .style(\"fill\", d => \x7b\n                    if (d.depth === 0) return \"#667eea\";\n                    if (d.data.type === \"certification\") return \"#FF9800\";\n                    return d.children ? \"#764ba2\" : \"#4CAF50\";\n                \x7d);\n            \n            nodeEnter.append(\"text\")\n                .attr(\"dy\", \".35em\")\n                .attr(\"x\", d => d.children || d._children ? -13 : 13)\n                .style(\"text-anchor\", d => d.children || d._children ? \"end\" : \"start\")\n                .text(d => d.data.name)\n                .style(\"font-size\", d => d.depth === 0 ? \"16px\" : d.depth === 1 ? \"14px\" : \"12px\");\n            \n            const nodeUpdate = nodeEnter.merge(node);\n            \n            nodeUpdate.transition()\n                .duration(300)\n                .attr(\"transform\", d => \x60translate($\x7bd.y\x7d,$\x7bd.x\x7d)\x60);\n            \n            nodeUpdate.select(\"circle\")\n                .attr(\"r\", d => d.depth === 0 ? 15 : d.depth === 1 ? 12 : 8);\n            \n            const nodeExit = node.exit()\n                .transition()\n                .duration(300)\n                .attr(\"transform\", d => \x60translate($\x7bsource.y\x7d,$\x7bsource.x\x7d)\x60)\n                .remove();\n            \n            const link = g.selectAll(\"path.link\")\n                .data(links, d => d.target.id);\n            \n            const linkEn"

/-- Last third of the template text after the substitution marker. -/
def templateSufC : String :=
  "ter = link.enter()\n                .insert(\"path\", \"g\")\n                .attr(\"class\", \"link\")\n                .attr(\"d\", d => \x7b\n                    const o = \x7bx: source.x0, y: source.y0\x7d;\n                    return diagonal(o, o);\n                \x7d);\n            \n            linkEnter.merge(link)\n                .transition()\n                .duration(300)\n                .attr(\"d\", d => diagonal(d.source, d.target));\n            \n            link.exit()\n                .transition()\n                .duration(300)\n                .attr(\"d\", d => \x7b\n                    const o = \x7bx: source.x, y: source.y\x7d;\n                    return diagonal(o, o);\n                \x7d)\n                .remove();\n            \n            nodes.forEach(d => \x7b\n                d.x0 = d.x;\n                d.y0 = d.y;\n            \x7d);\n        \x7d\n        \n        function diagonal(s, d) \x7b\n            return \x60M $\x7bs.y\x7d $\x7bs.x\x7d\n                    C $\x7b(s.y + d.y) / 2\x7d $\x7bs.x\x7d,\n                      $\x7b(s.y + d.y) / 2\x7d $\x7bd.x\x7d,\n                      $\x7bd.y\x7d $\x7bd.x\x7d\x60;\n        \x7d\n        \n        function zoomIn() \x7b\n            svg.transition().call(zoom.scaleBy, 1.5);\n        \x7d\n        \n        function zoomOut() \x7b\n            svg.transition().call(zoom.scaleBy, 0.67);\n        \x7d\n        \n        function resetZoom() \x7b\n            svg.transition().call(zoom.transform, d3.zoomIdentity);\n        \x7d\n        \n        function expandAll() \x7b\n            root.descendants().forEach(d => \x7b\n                if (d._children) \x7b\n                    d.children = d._children;\n                    d._children = null;\n                \x7d\n            \x7d);\n            update(root);\n        \x7d\n        \n        function collapseAll() \x7b\n            root.descendants().forEach(d => \x7b\n                if (d.children && d.depth > 1) \x7b\n                    d._children = d.children;\n                    d.children = null;\n                \x7d\n            \x7d);\n            update(root);\n        \x7d\n        \n        init();\n    </script>\n</body>\n</html>"

/-- The template text before the substitution marker. -/
def templatePre : String :=
  templatePreA ++ templatePreB

/-- The template text after the substitution marker. -/
def templateSuf : String :=
  templateSufA ++ templateSufB ++ templateSufC

/-- The fixed visualization template `html_template` of
`generate_html_visualization` (source lines 262-550), verbatim (braces,
apostrophes and backticks written with hexadecimal escapes, and the text
split into literal pieces around the marker so that facts about it stay
within the proof checker\x27s evaluation depth; the concatenation is the
source string character for character). -/
def html_template : String :=
  templatePre ++ "SKILL_TREE_DATA" ++ templateSuf

/-- The substitution marker, as a character list. -/
def markerL : List Char :=
  ("SKILL_TREE_DATA" : String).data


theorem length_eq_of_drop {l : List Char} {n : Nat}
    (h1 : l.drop n = []) (h2 : l.drop (n - 1) ≠ []) (hn : 1 ≤ n) :
    l.length = n := by
  have a1 : l.length ≤ n := List.drop_eq_nil_iff.mp h1
  have a2 : ¬l.length ≤ n - 1 := fun h => h2 (List.drop_eq_nil_iff.mpr h)
  omega

theorem len_templatePreA : templatePreA.data.length = 1630 :=
  length_eq_of_drop (by decide) (by decide) (by omega)

theorem len_templatePreB : templatePreB.data.length = 1630 :=
  length_eq_of_drop (by decide) (by decide) (by omega)

theorem len_templateSufB : templateSufB.data.length = 1998 :=
  length_eq_of_drop (by decide) (by decide) (by omega)

theorem len_templateSufC : templateSufC.data.length = 2000 :=
  length_eq_of_drop (by decide) (by decide) (by omega)

theorem len_t1chunk : (markerL.drop 1 ++ templateSufA.data).length = 2012 :=
  length_eq_of_drop (by decide) (by decide) (by omega)

theorem tmpl_fact_preA :
    noStartWithin markerL 1630
      (templatePreA.data ++ templatePreB.data.take 15) = true := by
  decide

theorem tmpl_fact_preB :
    noStartWithin markerL 1630 (templatePreB.data ++ markerL) = true := by
  decide

theorem tmpl_fact_t1 :
    noStartWithin markerL 2012
      ((markerL.drop 1 ++ templateSufA.data) ++ templateSufB.data.take 15) =
      true := by
  decide

theorem tmpl_fact_t2 :
    noStartWithin markerL 1998
      (templateSufB.data ++ templateSufC.data.take 15) = true := by
  decide

theorem tmpl_fact_t3 :
    noStartWithin markerL 2000
      (templateSufC.data ++ ([] : List Char).take markerL.length) = true := by
  decide

theorem string_data_append (a b : String) : (a ++ b).data = a.data ++ b.data :=
  rfl

theorem marker_ne_nil : markerL ≠ [] := by
  decide

theorem noOcc_sufC :
    ∀ i, markerL.isPrefixOf (List.drop i templateSufC.data) = false := by
  have hc : noStartWithin markerL templateSufC.data.length
      (templateSufC.data ++ ([] : List Char).take markerL.length) = true := by
    rw [len_templateSufC]
    exact tmpl_fact_t3
  have h := noStart_chunk_step markerL templateSufC.data [] marker_ne_nil hc
    (noOcc_nil markerL marker_ne_nil)
  intro i
  have hi := h i
  rwa [List.append_nil] at hi

theorem noOcc_sufBC :
    ∀ i, markerL.isPrefixOf
      (List.drop i (templateSufB.data ++ templateSufC.data)) = false := by
  have he : templateSufC.data.take markerL.length = templateSufC.data.take 15 := by
    decide
  have hc : noStartWithin markerL templateSufB.data.length
      (templateSufB.data ++ templateSufC.data.take markerL.length) = true := by
    rw [len_templateSufB, he]
    exact tmpl_fact_t2
  exact noStart_chunk_step markerL templateSufB.data templateSufC.data
    marker_ne_nil hc noOcc_sufC

theorem marker_head : markerL = 'S' :: markerL.drop 1 := by
  decide

theorem templateSuf_data : templateSuf.data =
    (templateSufA.data ++ templateSufB.data) ++ templateSufC.data := by
  show (templateSufA ++ templateSufB ++ templateSufC).data = _
  rw [string_data_append, string_data_append]

theorem noOcc_mt_suf :
    ∀ i, markerL.isPrefixOf
      (List.drop i (markerL.drop 1 ++ templateSuf.data)) = false := by
  have he : (templateSufB.data ++ templateSufC.data).take markerL.length =
      templateSufB.data.take 15 := by
    decide
  have hc : noStartWithin markerL (markerL.drop 1 ++ templateSufA.data).length
      ((markerL.drop 1 ++ templateSufA.data) ++
        (templateSufB.data ++ templateSufC.data).take markerL.length) = true := by
    rw [len_t1chunk, he]
    exact tmpl_fact_t1
  have h := noStart_chunk_step markerL (markerL.drop 1 ++ templateSufA.data)
    (templateSufB.data ++ templateSufC.data) marker_ne_nil hc noOcc_sufBC
  have heq : (markerL.drop 1 ++ templateSufA.data) ++
      (templateSufB.data ++ templateSufC.data) =
      markerL.drop 1 ++ templateSuf.data := by
    rw [templateSuf_data]
    simp [List.append_assoc]
  intro i
  have hi := h i
  rwa [heq] at hi

theorem noOcc_suf :
    ∀ i, markerL.isPrefixOf (List.drop i templateSuf.data) = false :=
  noOcc_of_append markerL (markerL.drop 1) templateSuf.data noOcc_mt_suf

theorem templatePre_data : templatePre.data =
    templatePreA.data ++ templatePreB.data := by
  show (templatePreA ++ templatePreB).data = _
  rw [string_data_append]

theorem noStartPre :
    ∀ i < templatePre.data.length,
      markerL.isPrefixOf
        (List.drop i (templatePre.data ++ (markerL ++ templateSuf.data))) =
        false := by
  have hB : noStartWithin markerL templatePreB.data.length
      (templatePreB.data ++ (markerL ++ templateSuf.data).take markerL.length) =
      true := by
    rw [len_templatePreB, List.take_left]
    exact tmpl_fact_preB
  have hinner := noStart_prefix_combine markerL templatePreB.data
    (markerL ++ templateSuf.data) 0 marker_ne_nil hB
    (fun i hi => absurd hi (by omega))
  have heA : (templatePreB.data ++ (markerL ++ templateSuf.data)).take
      markerL.length = templatePreB.data.take 15 := by
    have h15 : markerL.length = 15 := by decide
    rw [h15, List.take_append_eq_append_take]
    have hz : 15 - templatePreB.data.length = 0 := by
      rw [len_templatePreB]
    rw [hz]
    simp
  have hA : noStartWithin markerL templatePreA.data.length
      (templatePreA.data ++
        (templatePreB.data ++ (markerL ++ templateSuf.data)).take
          markerL.length) = true := by
    rw [len_templatePreA, heA]
    exact tmpl_fact_preA
  have houter := noStart_prefix_combine markerL templatePreA.data
    (templatePreB.data ++ (markerL ++ templateSuf.data))
    templatePreB.data.length marker_ne_nil hA
    (fun i hi => hinner i (by omega))
  intro i hi
  have hlen : templatePre.data.length =
      templatePreA.data.length + templatePreB.data.length := by
    rw [templatePre_data, List.length_append]
  have hres := houter i (by omega)
  rw [templatePre_data, List.append_assoc]
  exact hres

theorem html_template_data :
    html_template.data = templatePre.data ++ (markerL ++ templateSuf.data) := by
  show ((templatePre ++ "SKILL_TREE_DATA") ++ templateSuf).data = _
  rw [string_data_append, string_data_append]
  rw [show ("SKILL_TREE_DATA" : String).data = markerL from rfl]
  rw [List.append_assoc]

theorem countOccur_cons (pat : List Char) (c : Char) (rest : List Char) :
    countOccur pat (c :: rest) =
      (if pat.isPrefixOf (c :: rest) then 1 else 0) + countOccur pat rest :=
  rfl

theorem template_marker_once : countOccur markerL html_template.data = 1 := by
  rw [html_template_data,
    countOccur_append_of_noStart markerL _ _ noStartPre]
  nth_rewrite 2 [marker_head]
  rw [List.cons_append, countOccur_cons]
  have hpref : markerL.isPrefixOf
      ('S' :: (markerL.drop 1 ++ templateSuf.data)) = true := by
    rw [isPrefixOf_iff_append]
    exact ⟨templateSuf.data, by rw [← List.cons_append, ← marker_head]⟩
  rw [hpref, countOccur_eq_zero markerL _ noOcc_mt_suf]
  rfl

theorem replaceAllL_template (repl : List Char) :
    replaceAllL markerL repl html_template.data =
      templatePre.data ++ (repl ++ templateSuf.data) := by
  rw [html_template_data]
  rw [replaceAllL_split markerL repl 'S' (markerL.drop 1) templateSuf.data
    marker_head templatePre.data noStartPre]
  rw [replaceAllL_no_occ markerL repl templateSuf.data
    (containsSub_eq_false _ _ noOcc_suf)]

/-!
## Remote classifier (`analyze_resume_with_xai`, source lines 63-149) and
the credential dispatch of `generate_skill_tree` (source lines 238-243)
-/

/-- Last-binding lookup in parsed JSON object fields (Python dicts keep
the last duplicate key). -/
def lookupLast (fields : List (String × JsonValue)) (k : String) : Option JsonValue :=
  ((fields.filter (fun kv => kv.1 == k)).getLast?).map (fun kv => kv.2)

/-- The envelope navigation
`result.get('choices', [{}])[0].get('message', {}).get('content', '{}')`
(source line 129).  `none` stands for any Python-level failure on the way
(index error, attribute error, non-string content reaching `.strip()`),
all of which the generic `except` handler turns into the fallback. -/
def getContent (v : JsonValue) : Option String :=
  match v with
  | .obj fields =>
    match (lookupLast fields "choices").getD (.arr [.obj []]) with
    | .arr (c0 :: _) =>
      match c0 with
      | .obj f0 =>
        match (lookupLast f0 "message").getD (.obj []) with
        | .obj f1 =>
          match (lookupLast f1 "content").getD (.str "\x7b\x7d") with
          | .str s => some s
          | _ => none
        | _ => none
      | _ => none
    | _ => none
  | _ => none

/-- Split a character list on newline characters, as `content.split('\n')`. -/
def splitOnNl : List Char → List (List Char)
  | [] => [[]]
  | c :: rest =>
    match splitOnNl rest with
    | [] => [[c]]
    | h :: t => if c = '\n' then [] :: h :: t else (c :: h) :: t

/-- The markdown code-fence stripping of source lines 133-137: strip the
content; if it starts with three backticks, drop every line whose
stripped form starts with three backticks and rejoin with newlines. -/
def stripFences (content : String) : String :=
  let c1 := pyStrip content
  if ("```" : String).data.isPrefixOf c1.data then
    String.mk (List.intercalate ['\n']
      ((splitOnNl c1.data).filter
        (fun ln => !(("```" : String).data.isPrefixOf (pyStripL ln)))))
  else c1

/-- The dict the fallback record denotes, as `json.loads` would read the
equivalent response (the shape returned at source lines 168-177). -/
def skillRecordJson (r : SkillRecord) : JsonValue :=
  .obj [("skills", .obj [
      ("technical", .obj (r.technical.map (fun kv => (kv.1, .arr (kv.2.map .str))))),
      ("soft_skills", .arr (r.soft_skills.map .str)),
      ("domains", .arr (r.domains.map .str)),
      ("certifications", .arr (r.certifications.map .str))]),
    ("experience_levels", .obj (r.experience_levels.map (fun kv => (kv.1, .str kv.2)))),
    ("skill_relationships", .arr (r.skill_relationships.map
      (fun rel => .obj [("parent", .str rel.1), ("child", .str rel.2.1),
        ("type", .str rel.2.2)])))]

/-- The value `_fallback_skill_extraction` returns, seen as the dict the
rest of the pipeline consumes. -/
def fallbackJson (resume_text : String) : JsonValue :=
  skillRecordJson (_fallback_skill_extraction resume_text)

/-- The observable outcome of the single `requests.post` call: a
transport-level exception (connection error or timeout), or a response
with its status code and its body as parsed by `response.json()` (`none`
when the body is not valid JSON, which raises). -/
inductive RemoteOutcome where
  | transport
  | response (status : Nat) (body : Option JsonValue)

/-- An exception escaping `analyze_resume_with_xai`: the
`UnboundLocalError` raised inside the first `except` handler (source line
144) when it prints `content[:500]` while the local `content` was never
bound. -/
inductive PyCrash where
  | unboundLocalError

/-- Model of `analyze_resume_with_xai` (source lines 63-149).  The raises
on the remote path land in the two `except` handlers — `requests.post`
failures, `raise_for_status`, envelope-navigation errors and a non-string
content hit the generic handler, and a `json.JSONDecodeError` from
`json.loads(content)` hits the first — and both handlers return
`_fallback_skill_extraction(resume_text)`, except for one path: when
`response.json()` itself raises `json.JSONDecodeError` (a success-status
response whose body is not valid JSON), the first handler runs with the
local `content` still unbound, so its print of `content[:500]` (source
line 144) raises `UnboundLocalError`, which no sibling handler catches
and which therefore propagates out of the function.  A successfully
parsed content value is returned as-is, without schema validation. -/
def analyze_resume_with_xai (resume_text : String)
    (outcome : RemoteOutcome) : Except PyCrash JsonValue :=
  match outcome with
  | .transport => .ok (fallbackJson resume_text)
  | .response status body =>
    if 400 ≤ status ∧ status < 600 then .ok (fallbackJson resume_text)
    else
      match body with
      | none => .error .unboundLocalError
      | some v =>
        match getContent v with
        | none => .ok (fallbackJson resume_text)
        | some content =>
          match jsonLoads (stripFences content) with
          | some d => .ok d
          | none => .ok (fallbackJson resume_text)

/-- The classification dispatch of `generate_skill_tree` (source lines
238-243): the remote analyzer runs only when the API key is present and
truthy (a non-empty string); otherwise the keyword fallback runs (and
nothing can crash). -/
def classify (resume_text : String) (api_key : Option String)
    (outcome : RemoteOutcome) : Except PyCrash JsonValue :=
  match api_key with
  | some k =>
    if k = "" then .ok (fallbackJson resume_text)
    else analyze_resume_with_xai resume_text outcome
  | none => .ok (fallbackJson resume_text)

/-!
## Artifact writer (`generate_html_visualization`, source lines 552-557,
and the write sequence of `generate_skill_tree`, source lines 248-255)
-/

/-- The HTML text produced by `generate_html_visualization`: the template
with the marker replaced by `json.dumps(skill_tree, indent=2)` (source
lines 553-554). -/
def html_content (skill_tree : Node) : String :=
  pyReplace html_template "SKILL_TREE_DATA" (skill_tree_json skill_tree)

/-- Closed form of the substitution: the marker occurs once, so the HTML
text is prefix, injected JSON, suffix. -/
theorem html_content_closed (t : Node) :
    html_content t = templatePre ++ (skill_tree_json t ++ templateSuf) := by
  unfold html_content pyReplace
  have hd : ("SKILL_TREE_DATA" : String).data = markerL := rfl
  rw [hd, replaceAllL_template]
  rw [String.ext_iff, string_data_append, string_data_append]

/-- The sequence of file writes performed after the tree is built
(source lines 248-255): first the JSON dump to `output_json`, then the
HTML visualization to `output_html`. -/
def generate_skill_tree_writes (skill_tree : Node)
    (output_json output_html : String) : List (String × String) :=
  [(output_json, fileJson skill_tree), (output_html, html_content skill_tree)]

/-- Run a write sequence left to right against a filesystem (a list of
path-content pairs in write order).  A write to a path the environment
makes unwritable raises; writes already performed persist, and the error
carries the surviving filesystem. -/
def runWrites (failing : String → Bool) :
    List (String × String) → List (String × String) →
    Except (List (String × String)) (List (String × String))
  | fs, [] => .ok fs
  | fs, (p, c) :: rest =>
    if failing p then .error fs else runWrites failing (fs ++ [(p, c)]) rest

/-- A small concrete tree of the program's shape, used by witnesses. -/
def exTree : Node :=
  .branch "Skills" [.branch "Soft Skills" [.leaf "Teamwork" "skill"]]

/-- C1.  The artifact writer substitutes the serialized tree for the
template's single placeholder exactly once, and the structured-data file
parses back to an equal tree; but the two serializations coincide only
on ASCII-only trees, because the file is written with
`ensure_ascii=False` while the HTML embeds a `json.dumps` with
`ensure_ascii` left at its default True. -/
theorem claim_C1 (t : Node) (ha : asciiOnly t = true) :
    countOccur markerL html_template.data = 1 ∧
    html_content t = templatePre ++ (skill_tree_json t ++ templateSuf) ∧
    skill_tree_json t = fileJson t ∧
    jsonLoads (fileJson t) = some (nodeJson t) ∧
    jsonToNode (nodeJson t) = some t :=
  ⟨template_marker_once, html_content_closed t,
   skill_tree_json_eq_fileJson t ha, jsonLoads_fileJson t,
   jsonToNode_nodeJson t⟩

/-- C1, witness: the concrete ASCII tree `exTree` satisfies the claim. -/
theorem claim_C1_witness :
    asciiOnly exTree = true ∧
    (countOccur markerL html_template.data = 1 ∧
     html_content exTree = templatePre ++ (skill_tree_json exTree ++ templateSuf) ∧
     skill_tree_json exTree = fileJson exTree ∧
     jsonLoads (fileJson exTree) = some (nodeJson exTree) ∧
     jsonToNode (nodeJson exTree) = some exTree) :=
  ⟨by decide, claim_C1 exTree (by decide)⟩

/-- C1, counterexample to the unqualified claim: on a tree holding a
non-ASCII name the HTML embeds an escaped serialization while the file
holds the raw character, so the two artifacts do not carry the same
serialized tree. -/
theorem claim_C1_counterexample :
    skill_tree_json (Node.branch "Skills" [Node.leaf "Café" "skill"]) ≠
      fileJson (Node.branch "Skills" [Node.leaf "Café" "skill"]) := by
  decide

/-- C4.  With a credential present, a transport error, an error-status
response, an envelope that cannot be navigated to a content string, or
content that is not valid JSON after fence stripping all silently yield
exactly the keyword fallback for the extracted text; but two failure
modes escape the claim: a success-status response whose body is not
valid JSON makes the first `except` handler print the unbound local
`content` and so raises `UnboundLocalError` out of the function, and
content that parses as any JSON value is returned as-is, with no schema
check, so a valid-JSON non-schema body does not fall back. -/
theorem claim_C4 (text key : String) (hkey : key ≠ "") :
    (classify text (some key) .transport = .ok (fallbackJson text)) ∧
    (∀ status body, 400 ≤ status → status < 600 →
      classify text (some key) (.response status body) = .ok (fallbackJson text)) ∧
    (∀ status, ¬ (400 ≤ status ∧ status < 600) →
      classify text (some key) (.response status none) =
        .error PyCrash.unboundLocalError) ∧
    (∀ status v, ¬ (400 ≤ status ∧ status < 600) → getContent v = none →
      classify text (some key) (.response status (some v)) = .ok (fallbackJson text)) ∧
    (∀ status v content, ¬ (400 ≤ status ∧ status < 600) →
      getContent v = some content → jsonLoads (stripFences content) = none →
      classify text (some key) (.response status (some v)) = .ok (fallbackJson text)) ∧
    (∀ status v content d, ¬ (400 ≤ status ∧ status < 600) →
      getContent v = some content → jsonLoads (stripFences content) = some d →
      classify text (some key) (.response status (some v)) = .ok d) := by
  refine ⟨?_, ?_, ?_, ?_, ?_, ?_⟩
  · simp [classify, analyze_resume_with_xai, hkey]
  · intro status body h1 h2
    simp [classify, analyze_resume_with_xai, hkey, h1, h2]
  · intro status h
    simp [classify, analyze_resume_with_xai, hkey, h]
  · intro status v h hc
    simp [classify, analyze_resume_with_xai, hkey, h, hc]
  · intro status v content h hc hj
    simp [classify, analyze_resume_with_xai, hkey, h, hc, hj]
  · intro status v content d h hc hj
    simp [classify, analyze_resume_with_xai, hkey, h, hc, hj]

/-- C4, witness: concrete handled failure paths land on the fallback,
and the concrete invalid-JSON-body path crashes. -/
theorem claim_C4_witness :
    ("key" : String) ≠ "" ∧
    classify "text" (some "key") .transport = .ok (fallbackJson "text") ∧
    classify "text" (some "key") (.response 503 (some (.obj []))) =
      .ok (fallbackJson "text") ∧
    classify "text" (some "key") (.response 200 (some (.str "nope"))) =
      .ok (fallbackJson "text") ∧
    classify "text" (some "key") (.response 200 none) =
      .error PyCrash.unboundLocalError := by
  have h := claim_C4 "text" "key" (by decide)
  exact ⟨by decide, h.1, h.2.1 503 (some (.obj [])) (by decide) (by decide),
    h.2.2.2.1 200 (.str "nope") (by decide) rfl,
    h.2.2.1 200 (by decide)⟩

/-- C4, counterexample to the unqualified claim: a success-status
response whose body is not valid JSON propagates `UnboundLocalError`
instead of falling back, and a successful response whose content is the
valid-JSON but schema-violating text of a list is returned as the empty
list, not the fallback record. -/
theorem claim_C4_counterexample :
    classify "" (some "key") (.response 200 none) =
      .error PyCrash.unboundLocalError ∧
    classify "" (some "key")
      (.response 200 (some (.obj [("choices", .arr [.obj [("message",
        .obj [("content", .str "[]")])]])]))) = .ok (.arr []) ∧
    fallbackJson "" = .obj [("skills", .obj [
        ("technical", .obj [("programming_languages", .arr []),
          ("frameworks", .arr []), ("tools", .arr [])]),
        ("soft_skills", .arr []), ("domains", .arr []),
        ("certifications", .arr [])]),
      ("experience_levels", .obj []), ("skill_relationships", .arr [])] ∧
    JsonValue.arr [] ≠ JsonValue.obj [("skills", .obj [
        ("technical", .obj [("programming_languages", .arr []),
          ("frameworks", .arr []), ("tools", .arr [])]),
        ("soft_skills", .arr []), ("domains", .arr []),
        ("certifications", .arr [])]),
      ("experience_levels", .obj []), ("skill_relationships", .arr [])] := by
  refine ⟨rfl, rfl, rfl, ?_⟩
  intro h
  exact JsonValue.noConfusion h

/-- C5.  With no credential, classification is the keyword fallback
regardless of anything remote (never the remote branch, so never a
crash): each technical category keeps exactly the table keywords that
match, in the table's declared order (each result list is a sublist of
its table list), a category with no match is empty, every non-technical
field is empty, and the run is deterministic. -/
theorem claim_C5 (text : String) (_htext : text ≠ "")
    (outcome outcome2 : RemoteOutcome) :
    classify text none outcome = .ok (fallbackJson text) ∧
    (_fallback_skill_extraction text).technical =
      tech_keywords.map (fun kv => (kv.1, kv.2.filter (keywordMatches text))) ∧
    (∀ kv, kv ∈ tech_keywords →
      (kv.1, kv.2.filter (keywordMatches text)) ∈
          (_fallback_skill_extraction text).technical ∧
        List.Sublist (kv.2.filter (keywordMatches text)) kv.2 ∧
        ((∀ k, k ∈ kv.2 → keywordMatches text k = false) →
          kv.2.filter (keywordMatches text) = [])) ∧
    (_fallback_skill_extraction text).soft_skills = [] ∧
    (_fallback_skill_extraction text).domains = [] ∧
    (_fallback_skill_extraction text).certifications = [] ∧
    (_fallback_skill_extraction text).experience_levels = [] ∧
    (_fallback_skill_extraction text).skill_relationships = [] ∧
    classify text none outcome = classify text none outcome2 := by
  refine ⟨rfl, rfl, ?_, rfl, rfl, rfl, rfl, rfl, rfl⟩
  intro kv hkv
  refine ⟨?_, List.filter_sublist _, ?_⟩
  · exact List.mem_map_of_mem (fun p => (p.1, p.2.filter (keywordMatches text))) hkv
  · intro hall
    rw [List.filter_eq_nil_iff]
    intro k hk
    simp [hall k hk]

/-- C5, witness: the claim instantiated at a concrete non-empty text and
the programming-languages table row. -/
theorem claim_C5_witness :
    ("Python and docker" : String) ≠ "" ∧
    ("programming_languages",
      ["Python", "JavaScript", "Java", "C++", "C#", "Go", "Rust",
       "TypeScript", "SQL", "R", "Swift", "Kotlin"]) ∈ tech_keywords ∧
    classify "Python and docker" none .transport =
      .ok (fallbackJson "Python and docker") ∧
    ("programming_languages",
      ["Python", "JavaScript", "Java", "C++", "C#", "Go", "Rust",
       "TypeScript", "SQL", "R", "Swift", "Kotlin"].filter
        (keywordMatches "Python and docker")) ∈
      (_fallback_skill_extraction "Python and docker").technical ∧
    List.Sublist
      (["Python", "JavaScript", "Java", "C++", "C#", "Go", "Rust",
        "TypeScript", "SQL", "R", "Swift", "Kotlin"].filter
         (keywordMatches "Python and docker"))
      ["Python", "JavaScript", "Java", "C++", "C#", "Go", "Rust",
       "TypeScript", "SQL", "R", "Swift", "Kotlin"] := by
  have h := claim_C5 "Python and docker" (by decide) .transport .transport
  have h3 := h.2.2.1 ("programming_languages",
      ["Python", "JavaScript", "Java", "C++", "C#", "Go", "Rust",
       "TypeScript", "SQL", "R", "Swift", "Kotlin"]) (by decide)
  exact ⟨by decide, by decide, h.1, h3.1, h3.2.1⟩

/-- C9.  Fallback matching is plain lowercased substring containment, not
whole-word matching: a table keyword enters a category's result list iff
its lowercased form occurs contiguously inside the lowercased text; in
particular any text whose lowercase form contains the letter r reports
the language R, and any text containing the literal word JavaScript also
reports Java. -/
theorem claim_C9 (text : String) :
    (∀ kv, kv ∈ tech_keywords → ∀ kw,
      (kw ∈ kv.2.filter (keywordMatches text) ↔
        kw ∈ kv.2 ∧
          ∃ a b, (pyLower text).data = a ++ (pyLower kw).data ++ b)) ∧
    ((∃ a b, (pyLower text).data = a ++ ['r'] ++ b) →
      ("programming_languages",
        ["Python", "JavaScript", "Java", "C++", "C#", "Go", "Rust",
         "TypeScript", "SQL", "R", "Swift", "Kotlin"].filter
          (keywordMatches text)) ∈
          (_fallback_skill_extraction text).technical ∧
        "R" ∈ ["Python", "JavaScript", "Java", "C++", "C#", "Go", "Rust",
         "TypeScript", "SQL", "R", "Swift", "Kotlin"].filter
          (keywordMatches text)) ∧
    ((∃ a b, text.data = a ++ ("JavaScript" : String).data ++ b) →
      "Java" ∈ ["Python", "JavaScript", "Java", "C++", "C#", "Go", "Rust",
        "TypeScript", "SQL", "R", "Swift", "Kotlin"].filter
          (keywordMatches text)) := by
  refine ⟨?_, ?_, ?_⟩
  · intro kv hkv kw
    rw [List.mem_filter, keywordMatches, containsSub_iff]
  · rintro ⟨a, b, hab⟩
    constructor
    · exact List.mem_cons_self _ _
    · refine List.mem_filter.mpr ⟨by decide, ?_⟩
      show containsSub (pyLower "R").data (pyLower text).data = true
      exact (containsSub_iff _ _).mpr ⟨a, b, hab⟩
  · rintro ⟨a, b, hab⟩
    refine List.mem_filter.mpr ⟨by decide, ?_⟩
    show containsSub (pyLower "Java").data (pyLower text).data = true
    refine (containsSub_iff _ _).mpr
      ⟨a.map asciiLower, ("script" : String).data ++ b.map asciiLower, ?_⟩
    have hmap : (pyLower text).data = (text.data).map asciiLower := rfl
    rw [hmap, hab]
    simp only [List.map_append]
    have hjs : (("JavaScript" : String).data).map asciiLower =
        ("java" : String).data ++ ("script" : String).data := by decide
    rw [hjs]
    have hj : (pyLower "Java").data = ['j', 'a', 'v', 'a'] := by decide
    rw [hj]
    simp

/-- C9, witness: the iff at a concrete matching pair, plus the r and
JavaScript consequences at concrete texts. -/
theorem claim_C9_witness :
    (("programming_languages",
      ["Python", "JavaScript", "Java", "C++", "C#", "Go", "Rust",
       "TypeScript", "SQL", "R", "Swift", "Kotlin"]) ∈ tech_keywords ∧
      ("Go" ∈ ["Python", "JavaScript", "Java", "C++", "C#", "Go", "Rust",
        "TypeScript", "SQL", "R", "Swift", "Kotlin"].filter
          (keywordMatches "I golf") ↔
        "Go" ∈ ["Python", "JavaScript", "Java", "C++", "C#", "Go", "Rust",
          "TypeScript", "SQL", "R", "Swift", "Kotlin"] ∧
          ∃ a b, (pyLower "I golf").data = a ++ (pyLower "Go").data ++ b)) ∧
    "R" ∈ ["Python", "JavaScript", "Java", "C++", "C#", "Go", "Rust",
      "TypeScript", "SQL", "R", "Swift", "Kotlin"].filter
        (keywordMatches "I write prose") ∧
    "Java" ∈ ["Python", "JavaScript", "Java", "C++", "C#", "Go", "Rust",
      "TypeScript", "SQL", "R", "Swift", "Kotlin"].filter
        (keywordMatches "I know JavaScript well") := by
  refine ⟨⟨by decide, ?_⟩, ?_, ?_⟩
  · exact (claim_C9 "I golf").1 ("programming_languages",
      ["Python", "JavaScript", "Java", "C++", "C#", "Go", "Rust",
       "TypeScript", "SQL", "R", "Swift", "Kotlin"]) (by decide) "Go"
  · exact ((claim_C9 "I write prose").2.1
      ⟨("i w" : String).data, ("ite prose" : String).data, by decide⟩).2
  · exact (claim_C9 "I know JavaScript well").2.2
      ⟨("I know " : String).data, (" well" : String).data, by decide⟩

/-- C10.  The pipeline writes the JSON file first and the HTML file
second; if the HTML write fails, the JSON write has already happened and
its file survives in the resulting filesystem, so the pair of outputs is
not produced atomically; when both paths are writable both files land,
in that order. -/
theorem claim_C10 (t : Node) (jp hp : String) (failing : String → Bool)
    (hj : failing jp = false) (hh : failing hp = true) :
    generate_skill_tree_writes t jp hp =
      [(jp, fileJson t), (hp, html_content t)] ∧
    runWrites failing [] (generate_skill_tree_writes t jp hp) =
      .error [(jp, fileJson t)] ∧
    (∀ failok : String → Bool, failok jp = false → failok hp = false →
      runWrites failok [] (generate_skill_tree_writes t jp hp) =
        .ok [(jp, fileJson t), (hp, html_content t)]) := by
  refine ⟨rfl, ?_, ?_⟩
  · simp [runWrites, generate_skill_tree_writes, hj, hh]
  · intro failok h1 h2
    simp [runWrites, generate_skill_tree_writes, h1, h2]

/-- C10, witness: with the default output paths and an environment that
rejects only the HTML path, the run fails holding exactly the written
JSON file. -/
theorem claim_C10_witness :
    (fun p => decide (p = "skill_tree.html")) "skill_tree.json" = false ∧
    (fun p => decide (p = "skill_tree.html")) "skill_tree.html" = true ∧
    runWrites (fun p => decide (p = "skill_tree.html")) []
      (generate_skill_tree_writes exTree "skill_tree.json" "skill_tree.html") =
      .error [("skill_tree.json", fileJson exTree)] := by
  refine ⟨by decide, by decide, ?_⟩
  exact (claim_C10 exTree "skill_tree.json" "skill_tree.html"
    (fun p => decide (p = "skill_tree.html")) (by decide) (by decide)).2.1
